import Mathlib

/-! nscon: namespace inventory, lookup and disambiguation.

A shallow embedding of the Go sources of `piotrzalecki/nscon`
(`internal/namespace/namespace.go`, `internal/inventory/inventory.go`,
`internal/ui/ui.go`, `cmd/root.go`) and theorems about them.

Conventions of the embedding:

* a Go `string` is a Lean `String` (valid UTF-8 only); the byte-wise functions
  of package `strings` used by the program (`Split` on `"_"`, `Contains`,
  `TrimSuffix`) agree with their character-wise versions on such strings;
* a Go `map[string][]T` is a function `String → Option (List T)`; reading a
  missing key gives the zero value, the nil slice, modelled by `[]`;
* a Go function that can panic returns the state it reached together with an
  optional `Panic`, or an `Except Panic`;
* a Go pair `(value, error)` is a Lean pair `value × Option error`: Go returns
  both components, also when the error is set; where the program never looks at
  the value beside an error (`strconv.Atoi`, the collaborators of `GetPNs`) the
  pair is an `Except`;
* the goroutines and the channel of `ScanProjectsForNamespaces` are a transition
  system: a state, one step per receive, and a schedule that picks the sender;
* the YAML codec and the file functions behind `Save` and `Load` are libraries
  outside the repository; they are modelled on the structure of the persisted
  document, and a file system is a map from paths to contents;
* terminal output (`fmt.Println`, `color.Green`, ...) is not modelled, except
  where it is the observable outcome of the lookup path.
-/

set_option autoImplicit false

namespace Nscon

/-! ## Data model (`internal/namespace/namespace.go`) -/

/-- One cluster's encoded identity and the namespace names observed in it. -/
structure ClusterNamespaces where
  ClusterName : String
  Namespaces : List String
  deriving DecidableEq, Repr

/-- One project's identifier and the clusters found by scanning it. -/
structure ProjectNamespaces where
  ProjectId : String
  Clusters : List ClusterNamespaces
  deriving DecidableEq, Repr

/-- One place a namespace name was observed. -/
structure NamespaceLocation where
  Cluster : String
  ProjectID : String
  Location : String
  deriving DecidableEq, Repr

/-- A runtime panic of the Go program. -/
inductive Panic where
  /-- The runtime error "index out of range [index] with length length". -/
  | indexOutOfRange (index : Int) (length : Nat)
  /-- A call of log.Panic with the given error text. -/
  | logPanic (err : String)
  deriving DecidableEq, Repr

/-! ## Package `strings` -/

/-- Whether the characters `s` start with the characters `p`. -/
def startsWith : List Char → List Char → Bool
  | _, [] => true
  | [], _ :: _ => false
  | a :: s, b :: p => decide (a = b) && startsWith s p

/-- The index of the first occurrence of `substr` in `s` at or after offset `k`
(`k` counts the characters already skipped), or `-1`. -/
def indexFrom (substr : List Char) : List Char → Nat → Int
  | [], k => if substr = [] then (k : Int) else -1
  | c :: t, k => if startsWith (c :: t) substr then (k : Int) else indexFrom substr t (k + 1)

/-- Go `strings.Index`: the index of the first instance of `substr` in `s`, or `-1`. -/
def Index (s substr : String) : Int :=
  indexFrom substr.data s.data 0

/-- Go `strings.Contains`: `Index(s, substr) >= 0`. -/
def Contains (s substr : String) : Bool :=
  decide (Index s substr ≥ 0)

/-- The pieces of `s` between the occurrences of the character `sep`. -/
def splitChars (sep : Char) : List Char → List (List Char)
  | [] => [[]]
  | c :: t =>
    if c = sep then [] :: splitChars sep t
    else
      match splitChars sep t with
      | [] => [[c]]
      | piece :: pieces => (c :: piece) :: pieces

/-- Go `strings.Split(s, sep)` for a one-character separator, the only use in the
program (`strings.Split(clusterGKEname, "_")`): the substrings between the
separators; `n` separators give `n + 1` pieces, and `Split("", sep)` is `[""]`. -/
def Split (s : String) (sep : Char) : List String :=
  (splitChars sep s.data).map String.mk

/-! ## Inventory (`internal/inventory/inventory.go`) -/

/-- Go `type Inventory map[string][]namespace.NamespaceLocation`. -/
abbrev Inventory := String → Option (List NamespaceLocation)

/-- The empty map, `make(inventory.Inventory)`. -/
def Inventory.empty : Inventory := fun _ => none

/-- The map read `i[ns]`: the stored slice, or the nil slice for a missing key. -/
def Inventory.get (i : Inventory) (ns : String) : List NamespaceLocation :=
  (i ns).getD []

/-- The map write `i[ns] = v`. -/
def Inventory.set (i : Inventory) (ns : String) (v : List NamespaceLocation) : Inventory :=
  fun k => if k = ns then some v else i k

/-- The innermost loop of `CreateFromProjectNamespaces`:
`for _, ns := range cluster.Namespaces { i[ns] = append(i[ns], namespaceLocation) }`. -/
def addNamespaces (namespaceLocation : NamespaceLocation) : List String → Inventory → Inventory
  | [], i => i
  | ns :: rest, i =>
    addNamespaces namespaceLocation rest (i.set ns (i.get ns ++ [namespaceLocation]))

/-- The loop over `projectNamespace.Clusters`. The two index expressions
`splittedGKEname[3]` and `splittedGKEname[2]` are evaluated, in this order, before the
namespaces of the cluster are visited; an index out of range panics and leaves the map
as the clusters before have made it. -/
def addClusters (projectId : String) : List ClusterNamespaces → Inventory → Inventory × Option Panic
  | [], i => (i, none)
  | cluster :: rest, i =>
    let clusterGKEname := cluster.ClusterName
    let splittedGKEname := Split clusterGKEname '_'
    match splittedGKEname[3]? with
    | none => (i, some (Panic.indexOutOfRange 3 splittedGKEname.length))
    | some clusterName =>
      match splittedGKEname[2]? with
      | none => (i, some (Panic.indexOutOfRange 2 splittedGKEname.length))
      | some clusterLocation =>
        addClusters projectId rest
          (addNamespaces
            { Cluster := clusterName, ProjectID := projectId, Location := clusterLocation }
            cluster.Namespaces i)

/-- Go `func (i Inventory) CreateFromProjectNamespaces(pns []namespace.ProjectNamespaces)`.
The method mutates the receiver map `i`; the result is the map when the method stops,
and the panic that stopped it, if any. -/
def CreateFromProjectNamespaces : Inventory → List ProjectNamespaces → Inventory × Option Panic
  | i, [] => (i, none)
  | i, projectNamespace :: rest =>
    let projectId := projectNamespace.ProjectId
    match addClusters projectId projectNamespace.Clusters i with
    | (i', none) => CreateFromProjectNamespaces i' rest
    | (i', some p) => (i', some p)

/-- Go `func (i Inventory) NamespaceLocationForCluster(ns, cluster string)`. -/
def NamespaceLocationForCluster (i : Inventory) (ns cluster : String) : List NamespaceLocation :=
  (i.get ns).foldl
    (fun nls nl => if Contains nl.Cluster cluster then nls ++ [nl] else nls) []

/-- Go `func (i Inventory) NamespaceLocationForProject(ns, project string)`. -/
def NamespaceLocationForProject (i : Inventory) (ns project : String) : List NamespaceLocation :=
  (i.get ns).foldl
    (fun nls nl => if Contains nl.ProjectID project then nls ++ [nl] else nls) []

/-! ## Package `strconv` -/

deriving instance DecidableEq for Except

/-- The two kinds of error of Go `strconv`. -/
inductive NumErr where
  | ErrSyntax
  | ErrRange
  deriving DecidableEq, Repr

/-- The loop of Go `strconv.ParseUint(s, 10, 64)` over the characters left, with the
value `n` read so far: a character that is not a decimal digit is a syntax error, a
value that leaves the range of `uint64` is a range error, whichever comes first. -/
def parseUintFrom : List Char → Nat → Except NumErr Nat
  | [], n => .ok n
  | c :: t, n =>
    if '0' ≤ c ∧ c ≤ '9' then
      if n ≥ (2 ^ 64 - 1) / 10 + 1 then .error .ErrRange
      else if n * 10 + (c.toNat - '0'.toNat) > 2 ^ 64 - 1 then .error .ErrRange
      else parseUintFrom t (n * 10 + (c.toNat - '0'.toNat))
    else .error .ErrSyntax

/-- Go `strconv.ParseUint(s, 10, 64)`: the empty string is a syntax error. -/
def ParseUint (s : List Char) : Except NumErr Nat :=
  match s with
  | [] => .error .ErrSyntax
  | _ :: _ => parseUintFrom s 0

/-- Go `strconv.Atoi(s)` on a 64-bit platform, that is `ParseInt(s, 10, 0)` (the fast
path for short strings computes the same): an optional sign `+` or `-`, then at least
one decimal digit and nothing else, and a value in `[-2^63, 2^63 - 1]`. The value
returned beside an error is not used by the program and is left out. -/
def Atoi (s : String) : Except NumErr Int :=
  match s.data with
  | [] => .error .ErrSyntax
  | c :: t =>
    let neg := decide (c = '-')
    let digits := if c = '+' ∨ c = '-' then t else c :: t
    match ParseUint digits with
    | .error .ErrSyntax => .error .ErrSyntax
    | .error .ErrRange => .error .ErrRange
    | .ok un =>
      if ¬ neg ∧ un ≥ 2 ^ 63 then .error .ErrRange
      else if neg ∧ un > 2 ^ 63 then .error .ErrRange
      else .ok (if neg then -(un : Int) else (un : Int))

/-- Go `strings.TrimSuffix(s, suffix)`: `s` without the trailing `suffix`, or `s`
itself when it does not end with `suffix`. -/
def TrimSuffix (s suffix : String) : String :=
  if startsWith s.data.reverse suffix.data.reverse then
    String.mk (s.data.take (s.data.length - suffix.data.length))
  else s

/-- The characters up to and including the first `delim`, if there is one. -/
def readUntil (delim : Char) : List Char → Option (List Char)
  | [] => none
  | c :: t => if c = delim then some [c] else (readUntil delim t).map (fun l => c :: l)

/-- Go `(*bufio.Reader).ReadString(delim)` on a reader over `input` (everything that
standard input will deliver before its end): the text up to and including the first
`delim`, or, when `input` ends before a `delim`, the text read and the error `io.EOF`. -/
def ReadString (input : String) (delim : Char) : String × Option String :=
  match readUntil delim input.data with
  | some line => (String.mk line, none)
  | none => (input, some "EOF")

/-! ## Disambiguation prompt (`internal/ui/ui.go`) -/

/-- Go `func MultipleNamespaceLocationsPrompt(nsls []namespace.NamespaceLocation)`,
reading the operator's answer from `stdin`. The table printed before the read is not
modelled. `log.Panic(err)` and the index expression `nsls[nli]` are the panics. -/
def MultipleNamespaceLocationsPrompt (nsls : List NamespaceLocation) (stdin : String) :
    Except Panic NamespaceLocation :=
  match ReadString stdin '\n' with
  | (_, some err) => .error (Panic.logPanic err)
  | (num, none) =>
    match Atoi (TrimSuffix num "\n") with
    | .error .ErrSyntax => .error (Panic.logPanic "invalid syntax")
    | .error .ErrRange => .error (Panic.logPanic "value out of range")
    | .ok nli =>
      if 0 ≤ nli then
        match nsls[nli.toNat]? with
        | some nl => .ok nl
        | none => .error (Panic.indexOutOfRange nli nsls.length)
      else .error (Panic.indexOutOfRange nli nsls.length)

/-! ## Scanning (`internal/namespace/namespace.go`) -/

/-- An error met while scanning a project: one reported by a collaborator, or
`fmt.Errorf("<what> cluster=%s: %w", clusterName, err)` wrapped around one. -/
inductive ScanError where
  | upstream (msg : String)
  | wrapped (what : String) (clusterName : String) (cause : ScanError)
  deriving DecidableEq, Repr

/-- The collaborators of `GetPNs`, whose bodies are calls of the GKE and Kubernetes
client libraries.

* `getK8sClusterConfigs projectId` is the repository function of that name; of the
  configuration it returns, `GetPNs` uses the keys of `kubeConfig.Clusters` only, given
  here as the list of cluster names in the order in which `range kubeConfig.Clusters`
  visits them (Go leaves that order unspecified, so every order is possible);
* `ClientConfig`, `NewForConfig`, `List` stand for
  `clientcmd.NewNonInteractiveClientConfig(...).ClientConfig()`,
  `kubernetes.NewForConfig(cfg)` and `k8s.CoreV1().Namespaces().List(...)` for the given
  project and cluster; `List` gives the names of the items. -/
structure ClusterLister where
  getK8sClusterConfigs : String → Except ScanError (List String)
  ClientConfig : String → String → Option ScanError
  NewForConfig : String → String → Option ScanError
  List : String → String → Except ScanError (List String)

/-- The loop `for clusterName := range kubeConfig.Clusters` of `GetPNs`, over the cluster
names still to visit, with the value of `projectNamespaces` so far. Each `return
projectNamespaces, fmt.Errorf(...)` returns that value as it is at that point. -/
def visitClusters (lister : ClusterLister) (projectId : String) :
    List String → ProjectNamespaces → ProjectNamespaces × Option ScanError
  | [], projectNamespaces => (projectNamespaces, none)
  | clusterName :: rest, projectNamespaces =>
    match lister.ClientConfig projectId clusterName with
    | some err =>
      (projectNamespaces,
        some (.wrapped "failed to create Kubernetes configuration" clusterName err))
    | none =>
      match lister.NewForConfig projectId clusterName with
      | some err =>
        (projectNamespaces,
          some (.wrapped "failed to create Kubernetes client" clusterName err))
      | none =>
        match lister.List projectId clusterName with
        | .error err =>
          (projectNamespaces, some (.wrapped "failed to list namespaces" clusterName err))
        | .ok items =>
          let clusterNamespaces : ClusterNamespaces :=
            { ClusterName := clusterName,
              Namespaces := items.foldl (fun namespaces item => namespaces ++ [item]) [] }
          visitClusters lister projectId rest
            { projectNamespaces with
              Clusters := projectNamespaces.Clusters ++ [clusterNamespaces] }

/-- Go `func GetPNs(ctx context.Context, projectId string) (ProjectNamespaces, error)`. -/
def GetPNs (lister : ClusterLister) (projectId : String) :
    ProjectNamespaces × Option ScanError :=
  let projectNamespaces : ProjectNamespaces := { ProjectId := projectId, Clusters := [] }
  match lister.getK8sClusterConfigs projectId with
  | .error err => (projectNamespaces, some err)
  | .ok clusters => visitClusters lister projectId clusters projectNamespaces

/-- Go `func GetNamespacesForProject(project string) (ProjectNamespaces, error)`: both of
its returns pass on what `GetPNs` returned. -/
def GetNamespacesForProject (lister : ClusterLister) (project : String) :
    ProjectNamespaces × Option ScanError :=
  match GetPNs lister project with
  | (projectNamespaces, some err) => (projectNamespaces, some err)
  | (projectNamespaces, none) => (projectNamespaces, none)

/-- The state of `ScanProjectsForNamespaces` once its goroutines are started.

* `senders`: the values of the goroutines that have not yet delivered; each goroutine
  sends the `pns` that `GetNamespacesForProject` returned, whether or not `err` was nil,
  and blocks on the unbuffered channel `pnsChan` until the main goroutine receives it;
* `projectNamespacesList`: the variable of that name in the main goroutine;
* `closed`: whether `close(pnsChan)` has run, which is what ends `for result := range
  pnsChan` and lets the function return. -/
structure ScanState where
  senders : List ProjectNamespaces
  projectNamespacesList : List ProjectNamespaces
  closed : Bool
  deriving DecidableEq, Repr

/-- The state after `for _, project := range projects { go func(pr string) {...}(project) }`:
one goroutine per project, nothing received, the channel open. -/
def ScanState.start (lister : ClusterLister) (projects : List String) : ScanState :=
  { senders := projects.map (fun pr => (GetNamespacesForProject lister pr).1),
    projectNamespacesList := [],
    closed := false }

/-- One iteration of `for result := range pnsChan`, receiving from the `k`-th goroutine
still blocked in its send: the result is appended, and the channel is closed when the
list has reached `len(projects) = n`. There is no iteration when the channel is closed
(the loop has ended) or when there is no such goroutine. -/
def receive (n : Nat) (k : Nat) (s : ScanState) : Option ScanState :=
  if s.closed then none
  else
    match s.senders[k]? with
    | none => none
    | some result =>
      let projectNamespacesList := s.projectNamespacesList ++ [result]
      some
        { senders := s.senders.eraseIdx k,
          projectNamespacesList := projectNamespacesList,
          closed := decide (projectNamespacesList.length = n) }

/-- The main goroutine of `ScanProjectsForNamespaces` from state `s`, under a schedule:
each number of `schedule` picks, among the goroutines blocked in their send, the one
whose value is received next. The function returns `projectNamespacesList` when the
channel has been closed; `none` means that it has not returned: it is blocked in the
receive of `range pnsChan`, for good when no goroutine is left to send. -/
def scanLoop (n : Nat) : List Nat → ScanState → Option (List ProjectNamespaces)
  | [], s => if s.closed then some s.projectNamespacesList else none
  | k :: schedule, s =>
    if s.closed then some s.projectNamespacesList
    else
      match receive n (k % s.senders.length) s with
      | none => none
      | some s' => scanLoop n schedule s'

/-- Go `func ScanProjectsForNamespaces(projects []string, verbose bool) []ProjectNamespaces`
under a schedule of the goroutines. `verbose` only adds output. -/
def ScanProjectsForNamespaces (lister : ClusterLister) (projects : List String)
    (_verbose : Bool) (schedule : List Nat) : Option (List ProjectNamespaces) :=
  scanLoop projects.length schedule (ScanState.start lister projects)

/-! ## Lookup path of the root command (`cmd/root.go`) -/

/-- The three "not found" messages of the lookup path. -/
inductive NotFoundMessage where
  /-- The text "Can't find namespace %s in cluster %s". -/
  | inCluster
  /-- The text "Can't find namespace %s in project %s". -/
  | inProject
  /-- The text "Namespace %s not found !!". -/
  | plain
  deriving DecidableEq, Repr

/-- What the lookup path does that can be observed from outside. -/
inductive Event where
  /-- A call `ui.MultipleNamespaceLocationsPrompt(nls)`. -/
  | prompt (nls : List NamespaceLocation)
  /-- A call `location.ConnectToCluster()`, the Connector. -/
  | connect (location : NamespaceLocation)
  /-- The `color.Red(...)` message with its arguments, followed by the hint. -/
  | notFound (message : NotFoundMessage) (args : List String)
  deriving DecidableEq, Repr

/-- The `else` branch of `rootCmd.Run` (no `--scan`) after `nI.Load` has returned the
inventory `nIl` without error: `ns` is `args[0]`, `cluster` and `project` are the values
of the flags, `stdin` is the operator's input. The result is the sequence of events and
the panic that ended the run, if any. -/
def lookupPath (nIl : Inventory) (ns cluster project : String) (stdin : String) :
    List Event × Option Panic :=
  if cluster ≠ "" then
    let nls := NamespaceLocationForCluster nIl ns cluster
    if nls.length > 1 then
      match MultipleNamespaceLocationsPrompt nls stdin with
      | .error p => ([Event.prompt nls], some p)
      | .ok location => ([Event.prompt nls, Event.connect location], none)
    else if nls.length = 1 then
      match nls[0]? with
      | some location => ([Event.connect location], none)
      | none => ([], some (Panic.indexOutOfRange 0 nls.length))
    else ([Event.notFound .inCluster [ns, project]], none)
  else if project ≠ "" then
    let nls := NamespaceLocationForProject nIl ns project
    if nls.length > 1 then
      match MultipleNamespaceLocationsPrompt nls stdin with
      | .error p => ([Event.prompt nls], some p)
      | .ok location => ([Event.prompt nls, Event.connect location], none)
    else if nls.length = 1 then
      match nls[0]? with
      | some location => ([Event.connect location], none)
      | none => ([], some (Panic.indexOutOfRange 0 nls.length))
    else ([Event.notFound .inProject [ns, project]], none)
  else
    let nls := nIl.get ns
    if nls.length > 1 then
      match MultipleNamespaceLocationsPrompt nls stdin with
      | .error p => ([Event.prompt nls], some p)
      | .ok location => ([Event.prompt nls, Event.connect location], none)
    else if nls.length = 1 then
      match nls[0]? with
      | some location => ([Event.connect location], none)
      | none => ([], some (Panic.indexOutOfRange 0 nls.length))
    else ([Event.notFound .plain [ns]], none)

/-! ## What a scan contributes to the inventory, stated over the scan results -/

/-- The location recorded for a namespace of cluster `c` of project `projectId`: the
4th part of the cluster identity as `Cluster`, the project, the 3rd part as `Location`. -/
def locationOf (projectId : String) (c : ClusterNamespaces) : NamespaceLocation :=
  { Cluster := (Split c.ClusterName '_')[3]?.getD "",
    ProjectID := projectId,
    Location := (Split c.ClusterName '_')[2]?.getD "" }

/-- One copy of `x` per occurrence of the name `n` in `namespaces`. -/
def occurrences (x : NamespaceLocation) (namespaces : List String) (n : String) :
    List NamespaceLocation :=
  (namespaces.filter (fun ns => decide (ns = n))).map (fun _ => x)

/-- The locations of the name `n` in the clusters `cs` of project `projectId`, in the
order of the clusters, one per occurrence of `n` in a cluster's `Namespaces`. -/
def clusterLocations (projectId : String) (cs : List ClusterNamespaces) (n : String) :
    List NamespaceLocation :=
  cs.flatMap (fun c => occurrences (locationOf projectId c) c.Namespaces n)

/-- The locations of the name `n` in the scan results `pns`, in scan order: projects,
then clusters, then namespaces, with multiplicity. -/
def locationsOf (pns : List ProjectNamespaces) (n : String) : List NamespaceLocation :=
  pns.flatMap (fun p => clusterLocations p.ProjectId p.Clusters n)

/-- The map `i` with the list `f n` appended at every name `n` for which `f n` is not
empty; the other names are as in `i` (a key stays a key, a missing name stays missing). -/
def Inventory.extend (i : Inventory) (f : String → List NamespaceLocation) : Inventory :=
  fun n => if f n = [] then i n else some (i.get n ++ f n)

/-- The candidate list that the lookup path computes: the cluster filter when the
cluster flag is set, else the project filter when the project flag is set, else the
plain map read. -/
def candidates (nIl : Inventory) (ns cluster project : String) : List NamespaceLocation :=
  if cluster ≠ "" then NamespaceLocationForCluster nIl ns cluster
  else if project ≠ "" then NamespaceLocationForProject nIl ns project
  else nIl.get ns

/-- The "not found" message of the branch that the flags select. -/
def notFoundEvent (ns cluster project : String) : Event :=
  if cluster ≠ "" then Event.notFound .inCluster [ns, project]
  else if project ≠ "" then Event.notFound .inProject [ns, project]
  else Event.notFound .plain [ns]

/-- The number that a text of decimal digits denotes, read from the left. -/
def decimalValue (digits : List Char) : Nat :=
  digits.foldl (fun n c => n * 10 + (c.toNat - '0'.toNat)) 0

/-- Whether scanning cluster `c` of project `projectId` fails: building the client
configuration, building the client, or listing the namespaces returns an error. -/
def clusterFails (lister : ClusterLister) (projectId c : String) : Bool :=
  (lister.ClientConfig projectId c).isSome
    || (lister.NewForConfig projectId c).isSome
    || (match lister.List projectId c with
        | .error _ => true
        | .ok _ => false)

/-- The `ClusterNamespaces` entry of a cluster whose scan succeeds: its name and the
namespace names listed for it. -/
def scannedCluster (lister : ClusterLister) (projectId c : String) : ClusterNamespaces :=
  { ClusterName := c,
    Namespaces :=
      match lister.List projectId c with
      | .ok items => items
      | .error _ => [] }

/-- A cluster lister for one project with two clusters, visited in the order
"gke_p_l_c1", "gke_p_l_c2": the first lists the namespace "payments", listing the
second fails. -/
def flakyLister : ClusterLister where
  getK8sClusterConfigs := fun _ => .ok ["gke_p_l_c1", "gke_p_l_c2"]
  ClientConfig := fun _ _ => none
  NewForConfig := fun _ _ => none
  List := fun _ c =>
    if c = "gke_p_l_c2" then .error (.upstream "timeout") else .ok ["payments"]

/-! ## Persistence (`Save` and `Load` of `internal/inventory/inventory.go`)

The YAML codec (`gopkg.in/yaml.v2`) and the file functions (`io/ioutil`) are libraries
outside the repository. They are modelled at the level of the document structure that
the persisted inventory file has; the concrete text of a document (indentation, quoting
and escaping of scalars) is not modelled. -/

/-- Modelled from the spec: a location record of the persisted inventory file, a YAML
mapping from field names to string scalars, in document order ("each record carrying
three string fields"). The encoder and decoder of `gopkg.in/yaml.v2` are missing. -/
abbrev YamlRecord := List (String × String)

/-- Modelled from the spec: the persisted inventory document, "whose top level is a
mapping from namespace name (string key) to a list of location records", in document
order. The text syntax of `gopkg.in/yaml.v2` is missing. -/
abbrev YamlDocument := List (String × List YamlRecord)

/-- Modelled from the spec: what a file holds, either an inventory document or content
that "does not match the expected structure". The byte content of files is missing. -/
inductive FileContent where
  | inventoryDocument (entries : YamlDocument)
  | other (text : String)
  deriving DecidableEq, Repr

/-- Modelled from the spec: the files that exist, by path, with their content, and the
paths at which a write fails (the I/O failure of a PersistenceError). The operating
system's file store behind `ioutil.WriteFile` and `ioutil.ReadFile` is missing. -/
structure FileSystem where
  files : String → Option FileContent
  writeFails : String → Bool

/-- Modelled from the spec: `ioutil.WriteFile(fileName, data, 0644)`, which writes the
file at the path, "fully replacing its previous contents", or fails and returns an
error (the library function is missing). -/
def WriteFile (fileName : String) (data : FileContent) (fs : FileSystem) :
    FileSystem × Option String :=
  if fs.writeFails fileName then (fs, some "write failed")
  else ({ fs with files := fun p => if p = fileName then some data else fs.files p }, none)

/-- Modelled from the spec: `ioutil.ReadFile(fileName)`, which returns the content of
the file or "fails with a NotFound error if the file is absent" (the library function
is missing). -/
def ReadFile (fileName : String) (fs : FileSystem) : Except String FileContent :=
  match fs.files fileName with
  | none => .error "no such file or directory"
  | some data => .ok data

/-- The record of one `NamespaceLocation`: its three fields under the keys that the
struct tags of `namespace.go` give them, `yaml:"clusterName"`, `yaml:"projectId"` and
`yaml:"clusterLocation"`, in the order of the fields. -/
def encodeLocation (nl : NamespaceLocation) : YamlRecord :=
  [("clusterName", nl.Cluster), ("projectId", nl.ProjectID), ("clusterLocation", nl.Location)]

/-- Decoding one pair of a record into the struct: the field whose tag is the key is set
to the value; a key that is no tag of the struct is skipped. -/
def setField (nl : NamespaceLocation) (pair : String × String) : NamespaceLocation :=
  if pair.1 = "clusterName" then { nl with Cluster := pair.2 }
  else if pair.1 = "projectId" then { nl with ProjectID := pair.2 }
  else if pair.1 = "clusterLocation" then { nl with Location := pair.2 }
  else nl

/-- The `NamespaceLocation` of one record: the zero value with each pair of the record
decoded into it in document order, so a field without a pair is the empty string. -/
def decodeLocation (record : YamlRecord) : NamespaceLocation :=
  record.foldl setField { Cluster := "", ProjectID := "", Location := "" }

/-- Modelled from the spec: `yaml.Marshal(&i)`, which "serializes the mapping": one
entry per key of the map, with the list of the records of its locations. `keys` is the
list of the keys of the map in the order in which the encoder writes them (a Go map has
finitely many keys and the encoder enumerates them; the function that stands for the
map here does not carry that list). Marshalling a map of this type does not fail. The
encoder of `gopkg.in/yaml.v2` is missing. -/
def Marshal (i : Inventory) (keys : List String) : Except String FileContent :=
  .ok (FileContent.inventoryDocument (keys.map (fun k => (k, (i.get k).map encodeLocation))))

/-- Decoding the entries of a document into the map `out`, in document order: each entry
stores a new list, the decoded records, at its key. -/
def decodeEntries : YamlDocument → Inventory → Inventory
  | [], out => out
  | (k, records) :: rest, out => decodeEntries rest (out.set k (records.map decodeLocation))

/-- Modelled from the spec: `yaml.Unmarshal(yamlFile, &i)`, which "reconstructs the
mapping from that file" into the map `out` it is given, and fails with "a ParseError if
the content does not match the expected structure". The decoder of `gopkg.in/yaml.v2`
is missing. -/
def Unmarshal (yamlFile : FileContent) (out : Inventory) : Except String Inventory :=
  match yamlFile with
  | .inventoryDocument entries => .ok (decodeEntries entries out)
  | .other _ => .error "cannot unmarshal"

/-- Go `func (i Inventory) Save(fileName string) error`, on the file system `fs`: the
file system after the call and the error returned (`none` for `nil`). `keys` is the key
list of the map `i`, see `Marshal`. -/
def Save (i : Inventory) (keys : List String) (fileName : String) (fs : FileSystem) :
    FileSystem × Option String :=
  match Marshal i keys with
  | .error err => (fs, some err)
  | .ok yamlData =>
    match WriteFile fileName yamlData fs with
    | (fs', some err) => (fs', some err)
    | (fs', none) => (fs', none)

/-- Go `func (i Inventory) Load(fileName string) (Inventory, error)`, on the file system
`fs`: `return nil, err` on a failed read or a failed decoding, else the receiver map as
the decoder has filled it. -/
def Load (i : Inventory) (fileName : String) (fs : FileSystem) : Except String Inventory :=
  match ReadFile fileName fs with
  | .error err => .error err
  | .ok yamlFile =>
    match Unmarshal yamlFile i with
    | .error err => .error err
    | .ok i' => .ok i'

/-! ## Lemmas on package `strings` -/

theorem startsWith_iff (s p : List Char) : startsWith s p = true ↔ p <+: s := by
  induction s generalizing p with
  | nil =>
    cases p with
    | nil => simp [startsWith]
    | cons b p => simp [startsWith]
  | cons a s ih =>
    cases p with
    | nil => simp [startsWith]
    | cons b p =>
      simp only [startsWith, Bool.and_eq_true, decide_eq_true_eq, ih, List.cons_prefix_cons]
      constructor
      · rintro ⟨h, h'⟩
        exact ⟨h.symm, h'⟩
      · rintro ⟨h, h'⟩
        exact ⟨h.symm, h'⟩

theorem indexFrom_nonneg_iff (substr s : List Char) (k : Nat) :
    0 ≤ indexFrom substr s k ↔ substr <:+: s := by
  induction s generalizing k with
  | nil =>
    by_cases h : substr = []
    · simp [indexFrom, h]
    · simp [indexFrom, h]
  | cons c t ih =>
    rw [indexFrom, List.infix_cons_iff]
    by_cases h : startsWith (c :: t) substr = true
    · simp only [h, if_true]
      constructor
      · intro _
        exact Or.inl ((startsWith_iff _ _).1 h)
      · intro _
        exact Int.ofNat_nonneg k
    · simp only [h, Bool.false_eq_true, if_false, ih]
      constructor
      · intro h'
        exact Or.inr h'
      · rintro (h' | h')
        · exact absurd ((startsWith_iff _ _).2 h') h
        · exact h'

/-- The Go `strings.Contains` of the embedding is substring containment. -/
theorem Contains_iff (s substr : String) :
    Contains s substr = true ↔ substr.data <:+: s.data := by
  simp [Contains, Index, indexFrom_nonneg_iff]

/-- The loop "append the elements that pass the test" is `List.filter`. -/
theorem foldl_append_if {α : Type} (p : α → Bool) (l acc : List α) :
    l.foldl (fun nls nl => if p nl then nls ++ [nl] else nls) acc = acc ++ l.filter p := by
  induction l generalizing acc with
  | nil => simp
  | cons a l ih =>
    by_cases h : p a = true
    · simp [List.foldl, ih, h, List.filter]
    · simp [List.foldl, ih, h, List.filter]

/-! ## Filtered lookup -/

/-- C3: `NamespaceLocationForCluster(ns, s)` is exactly the sub-sequence of `i[ns]`, in the
same order and with the same multiplicity, of the locations whose `Cluster` contains `s`
as a substring, and `NamespaceLocationForProject(ns, s)` is the sub-sequence of those
whose `ProjectID` contains `s`; over the locations with clusters "webapp-1" and
"billing", the cluster filter with "web" returns exactly the first. -/
theorem filter_is_substring_subsequence (i : Inventory) (ns s : String) :
    NamespaceLocationForCluster i ns s
        = (i.get ns).filter (fun nl => decide (s.data <:+: nl.Cluster.data))
      ∧ NamespaceLocationForProject i ns s
        = (i.get ns).filter (fun nl => decide (s.data <:+: nl.ProjectID.data))
      ∧ NamespaceLocationForCluster
          (Inventory.empty.set "payments"
            [{ Cluster := "webapp-1", ProjectID := "p", Location := "l" },
             { Cluster := "billing", ProjectID := "p", Location := "l" }])
          "payments" "web"
        = [{ Cluster := "webapp-1", ProjectID := "p", Location := "l" }] := by
  refine ⟨?_, ?_, by decide⟩
  · unfold NamespaceLocationForCluster
    rw [foldl_append_if (fun nl : NamespaceLocation => Contains nl.Cluster s)]
    simp only [List.nil_append]
    congr 1
    funext nl
    rw [Bool.eq_iff_iff, Contains_iff]
    simp
  · unfold NamespaceLocationForProject
    rw [foldl_append_if (fun nl : NamespaceLocation => Contains nl.ProjectID s)]
    simp only [List.nil_append]
    congr 1
    funext nl
    rw [Bool.eq_iff_iff, Contains_iff]
    simp

/-- C9: for a namespace name that is not a key of the inventory, the map read `i[ns]`
gives the empty list, and so do `NamespaceLocationForCluster` and
`NamespaceLocationForProject` for every substring; the three are total functions, so
none of them fails. -/
theorem lookup_missing_key_empty (i : Inventory) (ns : String) (h : i ns = none) :
    i.get ns = []
      ∧ (∀ s, NamespaceLocationForCluster i ns s = [])
      ∧ (∀ s, NamespaceLocationForProject i ns s = []) := by
  have hget : i.get ns = [] := by simp [Inventory.get, h]
  refine ⟨hget, ?_, ?_⟩
  · intro s
    simp [NamespaceLocationForCluster, hget]
  · intro s
    simp [NamespaceLocationForProject, hget]

theorem lookup_missing_key_empty_witness :
    (Inventory.empty.set "payments" [{ Cluster := "c", ProjectID := "p", Location := "l" }])
        "nonexistent-namespace" = none
      ∧ (Inventory.empty.set "payments" [{ Cluster := "c", ProjectID := "p", Location := "l" }]).get
          "nonexistent-namespace" = []
      ∧ NamespaceLocationForCluster
          (Inventory.empty.set "payments" [{ Cluster := "c", ProjectID := "p", Location := "l" }])
          "nonexistent-namespace" "c" = [] :=
  ⟨by decide,
   (lookup_missing_key_empty _ "nonexistent-namespace" (by decide)).1,
   (lookup_missing_key_empty _ "nonexistent-namespace" (by decide)).2.1 "c"⟩

/-! ## Building the inventory -/

theorem Inventory.extend_nil (i : Inventory) : i.extend (fun _ => []) = i := by
  funext n
  simp [Inventory.extend]

theorem Inventory.extend_extend (i : Inventory) (f g : String → List NamespaceLocation) :
    (i.extend f).extend g = i.extend (fun n => f n ++ g n) := by
  funext n
  by_cases hf : f n = [] <;> by_cases hg : g n = [] <;>
    simp [Inventory.extend, Inventory.get, hf, hg]

theorem Inventory.set_append_eq_extend (i : Inventory) (ns : String) (x : NamespaceLocation) :
    i.set ns (i.get ns ++ [x]) = i.extend (occurrences x [ns]) := by
  funext n
  by_cases h : n = ns
  · subst h
    simp [Inventory.set, Inventory.extend, occurrences]
  · have h' : ¬ ns = n := fun e => h e.symm
    simp [Inventory.set, Inventory.extend, occurrences, h, h']

theorem occurrences_cons (x : NamespaceLocation) (ns : String) (rest : List String) (n : String) :
    occurrences x (ns :: rest) n = occurrences x [ns] n ++ occurrences x rest n := by
  by_cases h : ns = n <;> simp [occurrences, List.filter, h]

/-- The innermost loop appends one copy of the location per occurrence of each name. -/
theorem addNamespaces_eq_extend (x : NamespaceLocation) (namespaces : List String)
    (i : Inventory) :
    addNamespaces x namespaces i = i.extend (occurrences x namespaces) := by
  induction namespaces generalizing i with
  | nil =>
    simp only [addNamespaces]
    exact (Inventory.extend_nil i).symm
  | cons ns rest ih =>
    have hcons : (fun n => occurrences x [ns] n ++ occurrences x rest n)
        = occurrences x (ns :: rest) :=
      funext (fun n => (occurrences_cons x ns rest n).symm)
    rw [addNamespaces, ih, Inventory.set_append_eq_extend, Inventory.extend_extend, hcons]

theorem getElem?_eq_none_of_short {α : Type} (l : List α) (k : Nat) (h : l.length ≤ k) :
    l[k]? = none := by
  simp [h]

theorem clusterLocations_cons (projectId : String) (c : ClusterNamespaces)
    (cs : List ClusterNamespaces) (n : String) :
    clusterLocations projectId (c :: cs) n
      = occurrences (locationOf projectId c) c.Namespaces n ++ clusterLocations projectId cs n := by
  simp [clusterLocations]

/-- One step of the cluster loop on a cluster whose identity has at least four parts. -/
theorem addClusters_cons_of_four (projectId : String) (c : ClusterNamespaces)
    (cs : List ClusterNamespaces) (i : Inventory)
    (h : 4 ≤ (Split c.ClusterName '_').length) :
    addClusters projectId (c :: cs) i
      = addClusters projectId cs (addNamespaces (locationOf projectId c) c.Namespaces i) := by
  have h3 : 3 < (Split c.ClusterName '_').length := by omega
  have h2 : 2 < (Split c.ClusterName '_').length := by omega
  rw [addClusters]
  simp only [locationOf, List.getElem?_eq_getElem h3, List.getElem?_eq_getElem h2,
    Option.getD_some]

/-- One step of the cluster loop on a cluster whose identity has fewer than four parts. -/
theorem addClusters_cons_of_short (projectId : String) (c : ClusterNamespaces)
    (cs : List ClusterNamespaces) (i : Inventory)
    (h : (Split c.ClusterName '_').length < 4) :
    addClusters projectId (c :: cs) i
      = (i, some (Panic.indexOutOfRange 3 (Split c.ClusterName '_').length)) := by
  have h3 : (Split c.ClusterName '_')[3]? = none :=
    getElem?_eq_none_of_short _ 3 (by omega)
  rw [addClusters]
  simp only [h3]

/-- The cluster loop over clusters whose identities all have at least four parts. -/
theorem addClusters_of_four (projectId : String) (cs : List ClusterNamespaces) (i : Inventory)
    (h : ∀ c ∈ cs, 4 ≤ (Split c.ClusterName '_').length) :
    addClusters projectId cs i = (i.extend (clusterLocations projectId cs), none) := by
  induction cs generalizing i with
  | nil =>
    simp only [addClusters]
    rw [show clusterLocations projectId [] = fun _ => [] from rfl, Inventory.extend_nil]
  | cons c cs ih =>
    have hcons : (fun n => occurrences (locationOf projectId c) c.Namespaces n
          ++ clusterLocations projectId cs n)
        = clusterLocations projectId (c :: cs) :=
      funext (fun n => (clusterLocations_cons projectId c cs n).symm)
    rw [addClusters_cons_of_four projectId c cs i (h c (List.mem_cons_self _ _)),
      ih _ (fun c' hc' => h c' (List.mem_cons_of_mem _ hc')),
      addNamespaces_eq_extend, Inventory.extend_extend, hcons]

/-- The cluster loop stops at the first cluster whose identity has fewer than four parts,
with the map as the clusters before it have made it. -/
theorem addClusters_stops_at_short (projectId : String) (cs₁ : List ClusterNamespaces)
    (c : ClusterNamespaces) (cs₂ : List ClusterNamespaces) (i : Inventory)
    (h₁ : ∀ c' ∈ cs₁, 4 ≤ (Split c'.ClusterName '_').length)
    (hc : (Split c.ClusterName '_').length < 4) :
    addClusters projectId (cs₁ ++ c :: cs₂) i
      = (i.extend (clusterLocations projectId cs₁),
          some (Panic.indexOutOfRange 3 (Split c.ClusterName '_').length)) := by
  induction cs₁ generalizing i with
  | nil =>
    rw [List.nil_append, addClusters_cons_of_short projectId c cs₂ i hc,
      show clusterLocations projectId [] = fun _ => [] from rfl, Inventory.extend_nil]
  | cons c' cs₁ ih =>
    have hcons : (fun n => occurrences (locationOf projectId c') c'.Namespaces n
          ++ clusterLocations projectId cs₁ n)
        = clusterLocations projectId (c' :: cs₁) :=
      funext (fun n => (clusterLocations_cons projectId c' cs₁ n).symm)
    rw [List.cons_append,
      addClusters_cons_of_four projectId c' _ i (h₁ c' (List.mem_cons_self _ _)),
      ih _ (fun d hd => h₁ d (List.mem_cons_of_mem _ hd)),
      addNamespaces_eq_extend, Inventory.extend_extend, hcons]

theorem locationsOf_cons (p : ProjectNamespaces) (pns : List ProjectNamespaces) (n : String) :
    locationsOf (p :: pns) n = clusterLocations p.ProjectId p.Clusters n ++ locationsOf pns n := by
  simp [locationsOf]

theorem locationsOf_append (pns₁ pns₂ : List ProjectNamespaces) (n : String) :
    locationsOf (pns₁ ++ pns₂) n = locationsOf pns₁ n ++ locationsOf pns₂ n := by
  simp [locationsOf]

/-- One step of the project loop on a project whose cluster identities all have at least
four parts. -/
theorem CreateFromProjectNamespaces_cons_of_four (p : ProjectNamespaces)
    (pns : List ProjectNamespaces) (i : Inventory)
    (h : ∀ c ∈ p.Clusters, 4 ≤ (Split c.ClusterName '_').length) :
    CreateFromProjectNamespaces i (p :: pns)
      = CreateFromProjectNamespaces (i.extend (clusterLocations p.ProjectId p.Clusters)) pns := by
  rw [CreateFromProjectNamespaces]
  simp only [addClusters_of_four p.ProjectId p.Clusters i h]

/-- Building from scan results whose cluster identities all have at least four parts:
no panic, and every name gets its locations appended in scan order. -/
theorem CreateFromProjectNamespaces_of_four (pns : List ProjectNamespaces) (i : Inventory)
    (h : ∀ p ∈ pns, ∀ c ∈ p.Clusters, 4 ≤ (Split c.ClusterName '_').length) :
    CreateFromProjectNamespaces i pns = (i.extend (locationsOf pns), none) := by
  induction pns generalizing i with
  | nil =>
    simp only [CreateFromProjectNamespaces]
    rw [show locationsOf [] = fun _ => [] from rfl, Inventory.extend_nil]
  | cons p pns ih =>
    have hcons : (fun n => clusterLocations p.ProjectId p.Clusters n ++ locationsOf pns n)
        = locationsOf (p :: pns) :=
      funext (fun n => (locationsOf_cons p pns n).symm)
    rw [CreateFromProjectNamespaces_cons_of_four p pns i (h p (List.mem_cons_self _ _)),
      ih _ (fun q hq => h q (List.mem_cons_of_mem _ hq)), Inventory.extend_extend, hcons]

/-- Building stops at the first cluster whose identity has fewer than four parts: the
map holds what the projects and clusters before it contributed, and nothing else. -/
theorem CreateFromProjectNamespaces_stops_at_short (pre : List ProjectNamespaces)
    (projectId : String) (cs₁ : List ClusterNamespaces) (c : ClusterNamespaces)
    (cs₂ : List ClusterNamespaces) (post : List ProjectNamespaces) (i : Inventory)
    (hpre : ∀ p ∈ pre, ∀ c' ∈ p.Clusters, 4 ≤ (Split c'.ClusterName '_').length)
    (h₁ : ∀ c' ∈ cs₁, 4 ≤ (Split c'.ClusterName '_').length)
    (hc : (Split c.ClusterName '_').length < 4) :
    CreateFromProjectNamespaces i
        (pre ++ { ProjectId := projectId, Clusters := cs₁ ++ c :: cs₂ } :: post)
      = (i.extend (locationsOf (pre ++ [{ ProjectId := projectId, Clusters := cs₁ }])),
          some (Panic.indexOutOfRange 3 (Split c.ClusterName '_').length)) := by
  induction pre generalizing i with
  | nil =>
    rw [List.nil_append, CreateFromProjectNamespaces]
    simp only [addClusters_stops_at_short projectId cs₁ c cs₂ i h₁ hc]
    have hloc : locationsOf ([] ++ [{ ProjectId := projectId, Clusters := cs₁ }])
        = clusterLocations projectId cs₁ := by
      funext n
      simp [locationsOf]
    rw [hloc]
  | cons p pre ih =>
    have hcons : (fun n => clusterLocations p.ProjectId p.Clusters n
          ++ locationsOf (pre ++ [{ ProjectId := projectId, Clusters := cs₁ }]) n)
        = locationsOf (p :: pre ++ [{ ProjectId := projectId, Clusters := cs₁ }]) :=
      funext (fun n => (locationsOf_cons p _ n).symm)
    rw [List.cons_append,
      CreateFromProjectNamespaces_cons_of_four p _ i (hpre p (List.mem_cons_self _ _)),
      ih _ (fun q hq => hpre q (List.mem_cons_of_mem _ hq)), Inventory.extend_extend, hcons]

theorem addClusters_panics_of_short (projectId : String) (cs : List ClusterNamespaces)
    (i : Inventory) (h : ∃ c ∈ cs, (Split c.ClusterName '_').length < 4) :
    ∃ i' p, addClusters projectId cs i = (i', some p) := by
  induction cs generalizing i with
  | nil =>
    obtain ⟨c, hc, _⟩ := h
    cases hc
  | cons c cs ih =>
    by_cases hc : (Split c.ClusterName '_').length < 4
    · exact ⟨_, _, addClusters_cons_of_short projectId c cs i hc⟩
    · rw [addClusters_cons_of_four projectId c cs i (by omega)]
      apply ih
      obtain ⟨d, hd, hshort⟩ := h
      rcases List.mem_cons.1 hd with rfl | hd'
      · exact absurd hshort hc
      · exact ⟨d, hd', hshort⟩

theorem CreateFromProjectNamespaces_panics_of_short (pns : List ProjectNamespaces)
    (i : Inventory)
    (h : ∃ p ∈ pns, ∃ c ∈ p.Clusters, (Split c.ClusterName '_').length < 4) :
    (CreateFromProjectNamespaces i pns).2 ≠ none := by
  induction pns generalizing i with
  | nil =>
    obtain ⟨p, hp, _⟩ := h
    cases hp
  | cons p pns ih =>
    by_cases hp : ∃ c ∈ p.Clusters, (Split c.ClusterName '_').length < 4
    · obtain ⟨i', q, hq⟩ := addClusters_panics_of_short p.ProjectId p.Clusters i hp
      rw [CreateFromProjectNamespaces]
      simp only [hq]
      simp
    · have hfour : ∀ c ∈ p.Clusters, 4 ≤ (Split c.ClusterName '_').length := by
        intro c hc
        by_contra hlt
        exact hp ⟨c, hc, by omega⟩
      rw [CreateFromProjectNamespaces_cons_of_four p pns i hfour]
      apply ih
      obtain ⟨q, hq, hshort⟩ := h
      rcases List.mem_cons.1 hq with rfl | hq'
      · exact absurd hshort hp
      · exact ⟨q, hq', hshort⟩

theorem occurrences_eq_nil_iff (x : NamespaceLocation) (namespaces : List String) (n : String) :
    occurrences x namespaces n = [] ↔ n ∉ namespaces := by
  simp only [occurrences, List.map_eq_nil_iff, List.filter_eq_nil_iff, decide_eq_true_eq]
  constructor
  · intro h hn
    exact h n hn rfl
  · intro h a ha e
    exact h (e ▸ ha)

theorem locationsOf_eq_nil_iff (pns : List ProjectNamespaces) (n : String) :
    locationsOf pns n = [] ↔ ∀ p ∈ pns, ∀ c ∈ p.Clusters, n ∉ c.Namespaces := by
  simp only [locationsOf, clusterLocations, List.flatMap_eq_nil_iff, occurrences_eq_nil_iff]

/-- C1: on an empty inventory and scan results whose cluster identities all split on
`_` into exactly four parts, `CreateFromProjectNamespaces` completes, and for every
name `n` the list stored at `n` is exactly the sequence, in scan order and with
multiplicity, of the locations (4th part, project id, 3rd part), one per occurrence of
`n` in a cluster's `Namespaces`; a name that occurs in no cluster is not a key. A project
"proj1" with cluster "gke_proj1_us-central1_mycluster" holding `n` gives
`[(mycluster, proj1, us-central1)]` at `n`. -/
theorem create_from_empty_lists_scan_order (pns : List ProjectNamespaces)
    (h : ∀ p ∈ pns, ∀ c ∈ p.Clusters, (Split c.ClusterName '_').length = 4) :
    (CreateFromProjectNamespaces Inventory.empty pns).2 = none
      ∧ (∀ n, (CreateFromProjectNamespaces Inventory.empty pns).1 n
          = if locationsOf pns n = [] then none else some (locationsOf pns n))
      ∧ (∀ n, (CreateFromProjectNamespaces Inventory.empty pns).1 n = none
          ↔ ∀ p ∈ pns, ∀ c ∈ p.Clusters, n ∉ c.Namespaces)
      ∧ (∀ n, (CreateFromProjectNamespaces Inventory.empty
            [{ ProjectId := "proj1",
               Clusters := [{ ClusterName := "gke_proj1_us-central1_mycluster",
                              Namespaces := [n] }] }]).1 n
          = some [{ Cluster := "mycluster", ProjectID := "proj1", Location := "us-central1" }]) := by
  have hfour : ∀ p ∈ pns, ∀ c ∈ p.Clusters, 4 ≤ (Split c.ClusterName '_').length :=
    fun p hp c hc => le_of_eq (h p hp c hc).symm
  have hrun := CreateFromProjectNamespaces_of_four pns Inventory.empty hfour
  have hval : ∀ n, (CreateFromProjectNamespaces Inventory.empty pns).1 n
      = if locationsOf pns n = [] then none else some (locationsOf pns n) := by
    intro n
    rw [hrun]
    by_cases hn : locationsOf pns n = [] <;>
      simp [Inventory.extend, Inventory.empty, Inventory.get, hn]
  refine ⟨by rw [hrun], hval, ?_, ?_⟩
  · intro n
    rw [hval n, ← locationsOf_eq_nil_iff]
    by_cases hn : locationsOf pns n = [] <;> simp [hn]
  · intro n
    have hsplit : Split "gke_proj1_us-central1_mycluster" '_'
        = ["gke", "proj1", "us-central1", "mycluster"] := by decide
    rw [CreateFromProjectNamespaces_of_four _ Inventory.empty
      (by
        intro p hp c hc
        simp only [List.mem_singleton] at hp
        subst hp
        simp only [List.mem_singleton] at hc
        subst hc
        rw [hsplit]
        decide)]
    simp [Inventory.extend, Inventory.empty, Inventory.get, locationsOf, clusterLocations,
      occurrences, locationOf, hsplit]

theorem create_from_empty_lists_scan_order_witness :
    (∀ p ∈ [({ ProjectId := "proj1",
               Clusters := [{ ClusterName := "gke_proj1_us-central1_mycluster",
                              Namespaces := ["payments", "billing"] },
                            { ClusterName := "gke_proj1_europe-west1_other",
                              Namespaces := ["payments"] }] } : ProjectNamespaces)],
        ∀ c ∈ p.Clusters, (Split c.ClusterName '_').length = 4)
      ∧ (CreateFromProjectNamespaces Inventory.empty
          [{ ProjectId := "proj1",
             Clusters := [{ ClusterName := "gke_proj1_us-central1_mycluster",
                            Namespaces := ["payments", "billing"] },
                          { ClusterName := "gke_proj1_europe-west1_other",
                            Namespaces := ["payments"] }] }]).2 = none
      ∧ locationsOf
          [{ ProjectId := "proj1",
             Clusters := [{ ClusterName := "gke_proj1_us-central1_mycluster",
                            Namespaces := ["payments", "billing"] },
                          { ClusterName := "gke_proj1_europe-west1_other",
                            Namespaces := ["payments"] }] }] "payments"
          = [{ Cluster := "mycluster", ProjectID := "proj1", Location := "us-central1" },
             { Cluster := "other", ProjectID := "proj1", Location := "europe-west1" }] :=
  ⟨by decide,
   (create_from_empty_lists_scan_order
      [{ ProjectId := "proj1",
         Clusters := [{ ClusterName := "gke_proj1_us-central1_mycluster",
                        Namespaces := ["payments", "billing"] },
                      { ClusterName := "gke_proj1_europe-west1_other",
                        Namespaces := ["payments"] }] }]
      (by decide)).1,
   by decide⟩

/-- C6, as the claim states it, fails: on a prior inventory that already lists a location
for "payments", building from a scan that finds "payments" keeps the prior location in
front of the new one, so the result differs from the build on an empty inventory; and a
key of the prior inventory that the scan does not produce survives. -/
theorem create_keeps_prior_inventory :
    (CreateFromProjectNamespaces
        ((Inventory.empty.set "payments"
            [{ Cluster := "old", ProjectID := "oldproj", Location := "oldloc" }]).set "legacy"
            [{ Cluster := "old", ProjectID := "oldproj", Location := "oldloc" }])
        [{ ProjectId := "proj1",
           Clusters := [{ ClusterName := "gke_proj1_us-central1_mycluster",
                          Namespaces := ["payments"] }] }]).1 "payments"
        = some [{ Cluster := "old", ProjectID := "oldproj", Location := "oldloc" },
                { Cluster := "mycluster", ProjectID := "proj1", Location := "us-central1" }]
      ∧ (CreateFromProjectNamespaces Inventory.empty
        [{ ProjectId := "proj1",
           Clusters := [{ ClusterName := "gke_proj1_us-central1_mycluster",
                          Namespaces := ["payments"] }] }]).1 "payments"
        = some [{ Cluster := "mycluster", ProjectID := "proj1", Location := "us-central1" }]
      ∧ (CreateFromProjectNamespaces
        ((Inventory.empty.set "payments"
            [{ Cluster := "old", ProjectID := "oldproj", Location := "oldloc" }]).set "legacy"
            [{ Cluster := "old", ProjectID := "oldproj", Location := "oldloc" }])
        [{ ProjectId := "proj1",
           Clusters := [{ ClusterName := "gke_proj1_us-central1_mycluster",
                          Namespaces := ["payments"] }] }]).1 "legacy"
        = some [{ Cluster := "old", ProjectID := "oldproj", Location := "oldloc" }]
      ∧ (CreateFromProjectNamespaces Inventory.empty
        [{ ProjectId := "proj1",
           Clusters := [{ ClusterName := "gke_proj1_us-central1_mycluster",
                          Namespaces := ["payments"] }] }]).1 "legacy" = none := by
  decide

/-- C6, amended: `CreateFromProjectNamespaces(S)` does not clear the receiver. Run on a
prior inventory `I` with well-formed scan results `S` (every cluster identity has four
parts) it completes, and at every name it stores the list of `I` followed by the list
that the build on an empty inventory stores; a name that the build on an empty inventory
does not store is as in `I`. On an empty `I` the result is the fresh mapping. -/
theorem create_appends_to_prior_inventory (I : Inventory) (S : List ProjectNamespaces)
    (h : ∀ p ∈ S, ∀ c ∈ p.Clusters, (Split c.ClusterName '_').length = 4) :
    (CreateFromProjectNamespaces I S).2 = none
      ∧ (∀ n, (CreateFromProjectNamespaces I S).1 n
          = match (CreateFromProjectNamespaces Inventory.empty S).1 n with
            | none => I n
            | some fresh => some (I.get n ++ fresh))
      ∧ ((∀ n, I n = none) →
          (CreateFromProjectNamespaces I S).1 = (CreateFromProjectNamespaces Inventory.empty S).1) := by
  have hfour : ∀ p ∈ S, ∀ c ∈ p.Clusters, 4 ≤ (Split c.ClusterName '_').length :=
    fun p hp c hc => le_of_eq (h p hp c hc).symm
  have hI := CreateFromProjectNamespaces_of_four S I hfour
  have hE := CreateFromProjectNamespaces_of_four S Inventory.empty hfour
  refine ⟨by rw [hI], ?_, ?_⟩
  · intro n
    rw [hI, hE]
    by_cases hn : locationsOf S n = [] <;>
      simp [Inventory.extend, Inventory.empty, Inventory.get, hn]
  · intro hnone
    have hIe : I = Inventory.empty := funext hnone
    rw [hIe]

theorem create_appends_to_prior_inventory_witness :
    (∀ p ∈ [({ ProjectId := "proj1",
               Clusters := [{ ClusterName := "gke_proj1_us-central1_mycluster",
                              Namespaces := ["payments"] }] } : ProjectNamespaces)],
        ∀ c ∈ p.Clusters, (Split c.ClusterName '_').length = 4)
      ∧ (CreateFromProjectNamespaces
          (Inventory.empty.set "payments"
            [{ Cluster := "old", ProjectID := "oldproj", Location := "oldloc" }])
          [{ ProjectId := "proj1",
             Clusters := [{ ClusterName := "gke_proj1_us-central1_mycluster",
                            Namespaces := ["payments"] }] }]).2 = none :=
  ⟨by decide,
   (create_appends_to_prior_inventory
      (Inventory.empty.set "payments"
        [{ Cluster := "old", ProjectID := "oldproj", Location := "oldloc" }])
      [{ ProjectId := "proj1",
         Clusters := [{ ClusterName := "gke_proj1_us-central1_mycluster",
                        Namespaces := ["payments"] }] }]
      (by decide)).1⟩

/-- C10, as the claim states it, fails: a cluster identity of five parts is not an
identity of exactly four parts, and yet the build completes without a panic and records
a location made of its 3rd and 4th parts. -/
theorem create_accepts_five_part_identity :
    (Split "gke_proj1_us-central1_my_cluster" '_').length = 5
      ∧ (CreateFromProjectNamespaces Inventory.empty
          [{ ProjectId := "proj1",
             Clusters := [{ ClusterName := "gke_proj1_us-central1_my_cluster",
                            Namespaces := ["payments"] }] }]).2 = none
      ∧ (CreateFromProjectNamespaces Inventory.empty
          [{ ProjectId := "proj1",
             Clusters := [{ ClusterName := "gke_proj1_us-central1_my_cluster",
                            Namespaces := ["payments"] }] }]).1 "payments"
        = some [{ Cluster := "my", ProjectID := "proj1", Location := "us-central1" }] := by
  decide

/-- C10, amended: `CreateFromProjectNamespaces` panics exactly when some cluster identity
splits on `_` into fewer than four parts, whether or not that cluster lists namespaces;
it stops at the first such cluster with the index-out-of-range panic, and the map then
holds what the clusters before it contributed and no location of that cluster or of a
later one. It completes without a panic when every identity has at least four parts
(four, or more than four). -/
theorem create_panics_iff_short_identity (i : Inventory) (pns : List ProjectNamespaces) :
    ((CreateFromProjectNamespaces i pns).2 ≠ none
        ↔ ∃ p ∈ pns, ∃ c ∈ p.Clusters, (Split c.ClusterName '_').length < 4)
      ∧ (∀ (pre : List ProjectNamespaces) (projectId : String)
          (cs₁ : List ClusterNamespaces) (c : ClusterNamespaces) (cs₂ : List ClusterNamespaces)
          (post : List ProjectNamespaces),
          pns = pre ++ { ProjectId := projectId, Clusters := cs₁ ++ c :: cs₂ } :: post →
          (∀ p ∈ pre, ∀ c' ∈ p.Clusters, 4 ≤ (Split c'.ClusterName '_').length) →
          (∀ c' ∈ cs₁, 4 ≤ (Split c'.ClusterName '_').length) →
          (Split c.ClusterName '_').length < 4 →
          CreateFromProjectNamespaces i pns
            = (i.extend (locationsOf (pre ++ [{ ProjectId := projectId, Clusters := cs₁ }])),
                some (Panic.indexOutOfRange 3 (Split c.ClusterName '_').length)))
      ∧ ((∀ p ∈ pns, ∀ c ∈ p.Clusters, 4 ≤ (Split c.ClusterName '_').length) →
          CreateFromProjectNamespaces i pns = (i.extend (locationsOf pns), none)) := by
  refine ⟨⟨?_, CreateFromProjectNamespaces_panics_of_short pns i⟩, ?_,
    CreateFromProjectNamespaces_of_four pns i⟩
  · intro hpanic
    by_contra hno
    apply hpanic
    have hfour : ∀ p ∈ pns, ∀ c ∈ p.Clusters, 4 ≤ (Split c.ClusterName '_').length := by
      intro p hp c hc
      by_contra hlt
      exact hno ⟨p, hp, c, hc, by omega⟩
    rw [CreateFromProjectNamespaces_of_four pns i hfour]
  · intro pre projectId cs₁ c cs₂ post hpns hpre h₁ hc
    rw [hpns]
    exact CreateFromProjectNamespaces_stops_at_short pre projectId cs₁ c cs₂ post i hpre h₁ hc

theorem create_panics_iff_short_identity_witness :
    (CreateFromProjectNamespaces Inventory.empty
        [{ ProjectId := "proj1",
           Clusters := [{ ClusterName := "gke_proj1_us-central1_mycluster",
                          Namespaces := ["payments"] },
                        { ClusterName := "minikube", Namespaces := [] }] }]).2 ≠ none
      ∧ CreateFromProjectNamespaces Inventory.empty
          ([] ++ { ProjectId := "proj1",
                   Clusters := [{ ClusterName := "gke_proj1_us-central1_mycluster",
                                  Namespaces := ["payments"] }]
                     ++ { ClusterName := "minikube", Namespaces := [] } :: [] } :: [])
        = (Inventory.empty.extend
            (locationsOf ([] ++ [{ ProjectId := "proj1",
                                   Clusters := [{ ClusterName := "gke_proj1_us-central1_mycluster",
                                                  Namespaces := ["payments"] }] }])),
            some (Panic.indexOutOfRange 3 (Split "minikube" '_').length)) :=
  ⟨(create_panics_iff_short_identity Inventory.empty
      [{ ProjectId := "proj1",
         Clusters := [{ ClusterName := "gke_proj1_us-central1_mycluster",
                        Namespaces := ["payments"] },
                      { ClusterName := "minikube", Namespaces := [] }] }]).1.2
      ⟨_, List.mem_singleton.2 rfl, { ClusterName := "minikube", Namespaces := [] },
        by simp, by decide⟩,
   (create_panics_iff_short_identity Inventory.empty _).2.1
      [] "proj1"
      [{ ClusterName := "gke_proj1_us-central1_mycluster", Namespaces := ["payments"] }]
      { ClusterName := "minikube", Namespaces := [] } [] [] rfl
      (by simp) (by decide) (by decide)⟩

/-! ## Package `strconv`: the embedding on sample inputs -/

/-- The embedding of `strconv.Atoi` agrees with Go on signs, leading zeros, the bounds of
`int` and malformed texts. -/
theorem Atoi_samples :
    Atoi "1" = .ok 1 ∧ Atoi "+12" = .ok 12 ∧ Atoi "-0" = .ok 0 ∧ Atoi "007" = .ok 7
      ∧ Atoi "9223372036854775807" = .ok 9223372036854775807
      ∧ Atoi "9223372036854775808" = .error .ErrRange
      ∧ Atoi "-9223372036854775808" = .ok (-9223372036854775808)
      ∧ Atoi "-9223372036854775809" = .error .ErrRange
      ∧ Atoi "99999999999999999999999x" = .error .ErrRange
      ∧ Atoi "1x" = .error .ErrSyntax ∧ Atoi " 1" = .error .ErrSyntax
      ∧ Atoi "1\r" = .error .ErrSyntax ∧ Atoi "" = .error .ErrSyntax
      ∧ Atoi "+" = .error .ErrSyntax ∧ Atoi "-" = .error .ErrSyntax := by
  decide

/-! ## The disambiguation prompt -/

theorem readUntil_line (delim : Char) (line rest : List Char) (h : delim ∉ line) :
    readUntil delim (line ++ delim :: rest) = some (line ++ [delim]) := by
  induction line with
  | nil => simp [readUntil]
  | cons c line ih =>
    have hc : ¬ c = delim := fun e => h (e ▸ List.mem_cons_self _ _)
    have hl : delim ∉ line := fun m => h (List.mem_cons_of_mem _ m)
    simp [readUntil, hc, ih hl]

theorem readUntil_eq_none (delim : Char) (input : List Char) (h : delim ∉ input) :
    readUntil delim input = none := by
  induction input with
  | nil => rfl
  | cons c input ih =>
    have hc : ¬ c = delim := fun e => h (e ▸ List.mem_cons_self _ _)
    have hl : delim ∉ input := fun m => h (List.mem_cons_of_mem _ m)
    simp [readUntil, hc, ih hl]

theorem ReadString_line (line rest : String) (h : '\n' ∉ line.data) :
    ReadString (line ++ "\n" ++ rest) '\n' = (line ++ "\n", none) := by
  have hdata : (line ++ "\n" ++ rest).data = line.data ++ '\n' :: rest.data := by
    simp [String.data_append]
  have hline : (line ++ "\n").data = line.data ++ ['\n'] := by
    simp [String.data_append]
  unfold ReadString
  rw [hdata, readUntil_line '\n' line.data rest.data h]
  simp only [Prod.mk.injEq, and_true]
  exact String.ext hline.symm

theorem TrimSuffix_newline (line : String) : TrimSuffix (line ++ "\n") "\n" = line := by
  have hline : (line ++ "\n").data = line.data ++ ['\n'] := by
    simp [String.data_append]
  have hnl : ("\n" : String).data = ['\n'] := rfl
  unfold TrimSuffix
  rw [hline, hnl]
  simp [startsWith]

/-- The prompt on an input that ends before any newline: `ReadString` reports `io.EOF`
and the prompt panics, whatever the text. -/
theorem prompt_panics_without_newline (nsls : List NamespaceLocation) (stdin : String)
    (h : '\n' ∉ stdin.data) :
    MultipleNamespaceLocationsPrompt nsls stdin = .error (Panic.logPanic "EOF") := by
  unfold MultipleNamespaceLocationsPrompt ReadString
  rw [readUntil_eq_none '\n' stdin.data h]

/-- The prompt on an input whose first line is `line`. -/
theorem prompt_on_line (nsls : List NamespaceLocation) (line rest : String)
    (h : '\n' ∉ line.data) :
    MultipleNamespaceLocationsPrompt nsls (line ++ "\n" ++ rest)
      = match Atoi line with
        | .error .ErrSyntax => .error (Panic.logPanic "invalid syntax")
        | .error .ErrRange => .error (Panic.logPanic "value out of range")
        | .ok nli =>
          if 0 ≤ nli then
            match nsls[nli.toNat]? with
            | some nl => .ok nl
            | none => .error (Panic.indexOutOfRange nli nsls.length)
          else .error (Panic.indexOutOfRange nli nsls.length) := by
  unfold MultipleNamespaceLocationsPrompt
  rw [ReadString_line line rest h]
  simp only [TrimSuffix_newline]

theorem foldl_digits_ge (digits : List Char) (n : Nat) :
    n ≤ digits.foldl (fun n c => n * 10 + (c.toNat - '0'.toNat)) n := by
  induction digits generalizing n with
  | nil => exact le_refl n
  | cons c t ih =>
    have h := ih (n * 10 + (c.toNat - '0'.toNat))
    simp only [List.foldl]
    omega

/-- On a text of decimal digits whose value fits `uint64`, the loop of `ParseUint`
returns that value. -/
theorem parseUintFrom_digits (digits : List Char) (n : Nat)
    (hdig : ∀ c ∈ digits, '0' ≤ c ∧ c ≤ '9')
    (hfit : digits.foldl (fun n c => n * 10 + (c.toNat - '0'.toNat)) n ≤ 2 ^ 64 - 1) :
    parseUintFrom digits n
      = .ok (digits.foldl (fun n c => n * 10 + (c.toNat - '0'.toNat)) n) := by
  induction digits generalizing n with
  | nil => rfl
  | cons c t ih =>
    have hc := hdig c (List.mem_cons_self _ _)
    have hge := foldl_digits_ge t (n * 10 + (c.toNat - '0'.toNat))
    simp only [List.foldl] at hfit ⊢
    have hstep : n * 10 + (c.toNat - '0'.toNat) ≤ 2 ^ 64 - 1 := le_trans hge hfit
    have hcut : ¬ n ≥ (2 ^ 64 - 1) / 10 + 1 := by
      norm_num at hstep ⊢
      omega
    have hmax : ¬ n * 10 + (c.toNat - '0'.toNat) > 2 ^ 64 - 1 := by omega
    rw [parseUintFrom]
    simp only [hc, and_self, if_true, hcut, hmax, if_false]
    exact ih _ (fun d hd => hdig d (List.mem_cons_of_mem _ hd)) hfit

/-- The embedding of `strconv.Atoi` on a non-empty text of decimal digits whose value
fits `int`: the value. -/
theorem Atoi_digits (line : String) (hne : line.data ≠ [])
    (hdig : ∀ c ∈ line.data, '0' ≤ c ∧ c ≤ '9')
    (hfit : decimalValue line.data < 2 ^ 63) :
    Atoi line = .ok (decimalValue line.data : Int) := by
  unfold Atoi
  rcases hdata : line.data with _ | ⟨c, t⟩
  · exact absurd hdata hne
  · rw [hdata] at hdig hfit
    have hc := hdig c (List.mem_cons_self _ _)
    have hplus : ¬ c = '+' := by
      intro e
      rw [e] at hc
      exact absurd hc.1 (by decide)
    have hminus : ¬ c = '-' := by
      intro e
      rw [e] at hc
      exact absurd hc.1 (by decide)
    have hparse : ParseUint (c :: t) = .ok (decimalValue (c :: t)) := by
      unfold ParseUint
      exact parseUintFrom_digits (c :: t) 0 hdig (by unfold decimalValue at hfit; omega)
    simp only [hplus, hminus, or_self, if_false, decide_False, hparse]
    have hlt : decimalValue (c :: t) < 9223372036854775808 := by
      norm_num at hfit
      exact hfit
    simp [hlt]

/-- A line that is the decimal numeral of an index `k < len(nsls)` selects `nsls[k]`. -/
theorem prompt_on_decimal_index (nsls : List NamespaceLocation) (line rest : String)
    (hne : line.data ≠ [])
    (hdig : ∀ c ∈ line.data, '0' ≤ c ∧ c ≤ '9')
    (hk : decimalValue line.data < nsls.length)
    (hlen : nsls.length < 2 ^ 63) :
    ∃ loc, nsls[decimalValue line.data]? = some loc
      ∧ MultipleNamespaceLocationsPrompt nsls (line ++ "\n" ++ rest) = .ok loc := by
  have hnl : '\n' ∉ line.data := by
    intro hmem
    exact absurd (hdig _ hmem).1 (by decide)
  refine ⟨nsls[decimalValue line.data], List.getElem?_eq_getElem hk, ?_⟩
  rw [prompt_on_line nsls line rest hnl, Atoi_digits line hne hdig (by omega)]
  simp [List.getElem?_eq_getElem hk]

/-- C4: for every candidate list and every line of operator input (terminated by a
newline), `MultipleNamespaceLocationsPrompt` returns a location if and only if the line
without its newline is numeric for `strconv.Atoi` and denotes an index `k` with
`0 <= k < len(nsls)`, and the location returned is then `nsls[k]`; on every other line
the call panics and returns no location. Candidates with clusters "a" and "b" and the
input "1" give the candidate with cluster "b". -/
theorem prompt_returns_iff_index_in_range (nsls : List NamespaceLocation) (line rest : String)
    (h : '\n' ∉ line.data) :
    (∀ loc, MultipleNamespaceLocationsPrompt nsls (line ++ "\n" ++ rest) = .ok loc
        ↔ ∃ k : Nat, Atoi line = .ok (k : Int) ∧ k < nsls.length ∧ nsls[k]? = some loc)
      ∧ ((¬ ∃ k : Nat, Atoi line = .ok (k : Int) ∧ k < nsls.length) →
          ∃ p, MultipleNamespaceLocationsPrompt nsls (line ++ "\n" ++ rest) = .error p)
      ∧ MultipleNamespaceLocationsPrompt
          [{ Cluster := "a", ProjectID := "p", Location := "l" },
           { Cluster := "b", ProjectID := "p", Location := "l" }] "1\n"
        = .ok { Cluster := "b", ProjectID := "p", Location := "l" } := by
  refine ⟨?_, ?_, by decide⟩
  · intro loc
    rw [prompt_on_line nsls line rest h]
    constructor
    · intro hok
      rcases hA : Atoi line with e | nli
      · rw [hA] at hok
        cases e <;> simp at hok
      · rw [hA] at hok
        by_cases hpos : 0 ≤ nli
        · simp only [hpos, if_true] at hok
          rcases hget : nsls[nli.toNat]? with _ | nl
          · rw [hget] at hok
            simp at hok
          · rw [hget] at hok
            simp only [Except.ok.injEq] at hok
            refine ⟨nli.toNat, ?_, ?_, ?_⟩
            · rw [Int.toNat_of_nonneg hpos]
            · exact (List.getElem?_eq_some.1 hget).1
            · rw [hget, hok]
        · simp only [hpos, if_false] at hok
          simp at hok
    · rintro ⟨k, hA, _, hget⟩
      rw [hA]
      simp [hget]
  · intro hno
    rw [prompt_on_line nsls line rest h]
    rcases hA : Atoi line with e | nli
    · cases e
      · exact ⟨_, rfl⟩
      · exact ⟨_, rfl⟩
    · by_cases hpos : 0 ≤ nli
      · rcases hget : nsls[nli.toNat]? with _ | nl
        · refine ⟨Panic.indexOutOfRange nli nsls.length, ?_⟩
          simp [hpos, hget]
        · exfalso
          apply hno
          refine ⟨nli.toNat, ?_, (List.getElem?_eq_some.1 hget).1⟩
          rw [hA, Int.toNat_of_nonneg hpos]
      · refine ⟨Panic.indexOutOfRange nli nsls.length, ?_⟩
        simp [hpos]

theorem prompt_returns_iff_index_in_range_witness :
    '\n' ∉ ("0" : String).data
      ∧ (MultipleNamespaceLocationsPrompt
            [{ Cluster := "a", ProjectID := "p", Location := "l" },
             { Cluster := "b", ProjectID := "p", Location := "l" }] ("0" ++ "\n" ++ "ignored")
          = .ok { Cluster := "a", ProjectID := "p", Location := "l" }
        ↔ ∃ k : Nat, Atoi "0" = .ok (k : Int)
            ∧ k < [({ Cluster := "a", ProjectID := "p", Location := "l" } : NamespaceLocation),
                   { Cluster := "b", ProjectID := "p", Location := "l" }].length
            ∧ [({ Cluster := "a", ProjectID := "p", Location := "l" } : NamespaceLocation),
               { Cluster := "b", ProjectID := "p", Location := "l" }][k]?
              = some { Cluster := "a", ProjectID := "p", Location := "l" }) :=
  ⟨by decide,
   (prompt_returns_iff_index_in_range _ "0" "ignored" (by decide)).1 _⟩

/-! ## The lookup path -/

/-- C8: in the lookup path of the root command, for each of the three branches (cluster
filter, project filter, no filter) and the candidate list the branch computes: with no
candidate the only event is the "not found" message, so neither the prompt nor the
Connector is called; with exactly one candidate the only event is one call of the
Connector, on that candidate; with more than one candidate the prompt is called once
and, when it returns a location, the Connector is called once, on that location (when
the prompt panics instead, the run ends with that panic after the one prompt). -/
theorem lookup_path_outcome (nIl : Inventory) (ns cluster project stdin : String) :
    (candidates nIl ns cluster project = [] →
        lookupPath nIl ns cluster project stdin = ([notFoundEvent ns cluster project], none))
      ∧ (∀ x, candidates nIl ns cluster project = [x] →
        lookupPath nIl ns cluster project stdin = ([Event.connect x], none))
      ∧ (1 < (candidates nIl ns cluster project).length →
        (∀ loc, MultipleNamespaceLocationsPrompt (candidates nIl ns cluster project) stdin
            = .ok loc →
          lookupPath nIl ns cluster project stdin
            = ([Event.prompt (candidates nIl ns cluster project), Event.connect loc], none))
        ∧ (∀ p, MultipleNamespaceLocationsPrompt (candidates nIl ns cluster project) stdin
            = .error p →
          lookupPath nIl ns cluster project stdin
            = ([Event.prompt (candidates nIl ns cluster project)], some p))) := by
  by_cases hc : cluster = ""
  · by_cases hp : project = ""
    · refine ⟨?_, ?_, ?_⟩
      · intro h
        simp only [candidates, hc, hp, ne_eq, not_true_eq_false, if_false] at h
        simp [lookupPath, notFoundEvent, hc, hp, h]
      · intro x h
        simp only [candidates, hc, hp, ne_eq, not_true_eq_false, if_false] at h
        simp [lookupPath, hc, hp, h]
      · intro h
        simp only [candidates, hc, hp, ne_eq, not_true_eq_false, if_false] at h ⊢
        refine ⟨?_, ?_⟩
        · intro loc hloc
          simp [lookupPath, hc, hp, h, hloc]
        · intro q hq
          simp [lookupPath, hc, hp, h, hq]
    · refine ⟨?_, ?_, ?_⟩
      · intro h
        simp only [candidates, hc, hp, ne_eq, not_true_eq_false, not_false_eq_true, if_false,
          if_true] at h
        simp [lookupPath, notFoundEvent, hc, hp, h]
      · intro x h
        simp only [candidates, hc, hp, ne_eq, not_true_eq_false, not_false_eq_true, if_false,
          if_true] at h
        simp [lookupPath, hc, hp, h]
      · intro h
        simp only [candidates, hc, hp, ne_eq, not_true_eq_false, not_false_eq_true, if_false,
          if_true] at h ⊢
        refine ⟨?_, ?_⟩
        · intro loc hloc
          simp [lookupPath, hc, hp, h, hloc]
        · intro q hq
          simp [lookupPath, hc, hp, h, hq]
  · refine ⟨?_, ?_, ?_⟩
    · intro h
      simp only [candidates, hc, ne_eq, not_false_eq_true, if_true] at h
      simp [lookupPath, notFoundEvent, hc, h]
    · intro x h
      simp only [candidates, hc, ne_eq, not_false_eq_true, if_true] at h
      simp [lookupPath, hc, h]
    · intro h
      simp only [candidates, hc, ne_eq, not_false_eq_true, if_true] at h ⊢
      refine ⟨?_, ?_⟩
      · intro loc hloc
        simp [lookupPath, hc, h, hloc]
      · intro q hq
        simp [lookupPath, hc, h, hq]

theorem lookup_path_outcome_witness :
    candidates
        (Inventory.empty.set "payments"
          [{ Cluster := "webapp-1", ProjectID := "p", Location := "l" },
           { Cluster := "billing", ProjectID := "p", Location := "l" }])
        "payments" "web" "" = [{ Cluster := "webapp-1", ProjectID := "p", Location := "l" }]
      ∧ lookupPath
          (Inventory.empty.set "payments"
            [{ Cluster := "webapp-1", ProjectID := "p", Location := "l" },
             { Cluster := "billing", ProjectID := "p", Location := "l" }])
          "payments" "web" "" ""
        = ([Event.connect { Cluster := "webapp-1", ProjectID := "p", Location := "l" }], none)
      ∧ lookupPath
          (Inventory.empty.set "payments"
            [{ Cluster := "webapp-1", ProjectID := "p", Location := "l" },
             { Cluster := "billing", ProjectID := "p", Location := "l" }])
          "payments" "" "" "1\n"
        = ([Event.prompt
              (candidates
                (Inventory.empty.set "payments"
                  [{ Cluster := "webapp-1", ProjectID := "p", Location := "l" },
                   { Cluster := "billing", ProjectID := "p", Location := "l" }])
                "payments" "" ""),
            Event.connect { Cluster := "billing", ProjectID := "p", Location := "l" }], none)
      ∧ lookupPath
          (Inventory.empty.set "payments"
            [{ Cluster := "webapp-1", ProjectID := "p", Location := "l" },
             { Cluster := "billing", ProjectID := "p", Location := "l" }])
          "orders" "" "" ""
        = ([notFoundEvent "orders" "" ""], none) :=
  ⟨by decide,
   (lookup_path_outcome _ "payments" "web" "" "").2.1 _ (by decide),
   ((lookup_path_outcome _ "payments" "" "" "1\n").2.2 (by decide)).1 _ (by decide),
   (lookup_path_outcome _ "orders" "" "" "").1 (by decide)⟩

/-! ## Scanning one project -/

theorem foldl_append_singleton {α : Type} (items acc : List α) :
    items.foldl (fun l item => l ++ [item]) acc = acc ++ items := by
  induction items generalizing acc with
  | nil => simp
  | cons a items ih => simp [List.foldl, ih]

/-- One step of the cluster loop of `GetPNs` on a cluster whose scan succeeds. -/
theorem visitClusters_cons_of_ok (lister : ClusterLister) (projectId c : String)
    (rest : List String) (pn : ProjectNamespaces)
    (h : clusterFails lister projectId c = false) :
    visitClusters lister projectId (c :: rest) pn
      = visitClusters lister projectId rest
          { pn with Clusters := pn.Clusters ++ [scannedCluster lister projectId c] } := by
  rw [visitClusters]
  rcases h₁ : lister.ClientConfig projectId c with _ | e₁
  · rcases h₂ : lister.NewForConfig projectId c with _ | e₂
    · rcases hl : lister.List projectId c with e₃ | items
      · simp [clusterFails, h₁, h₂, hl] at h
      · simp only [scannedCluster, hl, foldl_append_singleton, List.nil_append]
    · simp [clusterFails, h₁, h₂] at h
  · simp [clusterFails, h₁] at h

/-- One step of the cluster loop of `GetPNs` on a cluster whose scan fails: the loop
returns, with the value accumulated so far and an error. -/
theorem visitClusters_cons_of_fails (lister : ClusterLister) (projectId c : String)
    (rest : List String) (pn : ProjectNamespaces)
    (h : clusterFails lister projectId c = true) :
    ∃ err, visitClusters lister projectId (c :: rest) pn = (pn, some err) := by
  rw [visitClusters]
  rcases h₁ : lister.ClientConfig projectId c with _ | e₁
  · rcases h₂ : lister.NewForConfig projectId c with _ | e₂
    · rcases hl : lister.List projectId c with e₃ | items
      · exact ⟨_, rfl⟩
      · simp [clusterFails, h₁, h₂, hl] at h
    · exact ⟨_, rfl⟩
  · exact ⟨_, rfl⟩

/-- The cluster loop of `GetPNs` stops at the first failing cluster and returns the
entries of the clusters visited before it. -/
theorem visitClusters_stops_at_failure (lister : ClusterLister) (projectId : String)
    (visited : List String) (c : String) (rest : List String) (pn : ProjectNamespaces)
    (hok : ∀ v ∈ visited, clusterFails lister projectId v = false)
    (hc : clusterFails lister projectId c = true) :
    ∃ err, visitClusters lister projectId (visited ++ c :: rest) pn
      = ({ pn with Clusters := pn.Clusters ++ visited.map (scannedCluster lister projectId) },
          some err) := by
  induction visited generalizing pn with
  | nil =>
    obtain ⟨err, herr⟩ := visitClusters_cons_of_fails lister projectId c rest pn hc
    exact ⟨err, by simp [herr]⟩
  | cons v visited ih =>
    obtain ⟨err, herr⟩ := ih
      { pn with Clusters := pn.Clusters ++ [scannedCluster lister projectId v] }
      (fun w hw => hok w (List.mem_cons_of_mem _ hw))
    refine ⟨err, ?_⟩
    rw [List.cons_append,
      visitClusters_cons_of_ok lister projectId v _ pn (hok v (List.mem_cons_self _ _)), herr]
    simp

/-- The cluster loop of `GetPNs` over clusters whose scans all succeed. -/
theorem visitClusters_of_ok (lister : ClusterLister) (projectId : String)
    (clusters : List String) (pn : ProjectNamespaces)
    (hok : ∀ v ∈ clusters, clusterFails lister projectId v = false) :
    visitClusters lister projectId clusters pn
      = ({ pn with Clusters := pn.Clusters ++ clusters.map (scannedCluster lister projectId) },
          none) := by
  induction clusters generalizing pn with
  | nil => simp [visitClusters]
  | cons v clusters ih =>
    rw [visitClusters_cons_of_ok lister projectId v _ pn (hok v (List.mem_cons_self _ _)),
      ih _ (fun w hw => hok w (List.mem_cons_of_mem _ hw))]
    simp

theorem exists_first_failing {α : Type} (f : α → Bool) (l : List α)
    (h : ∃ c ∈ l, f c = true) :
    ∃ visited c rest, l = visited ++ c :: rest ∧ (∀ v ∈ visited, f v = false) ∧ f c = true := by
  induction l with
  | nil =>
    obtain ⟨c, hc, _⟩ := h
    cases hc
  | cons a l ih =>
    by_cases ha : f a = true
    · exact ⟨[], a, l, rfl, fun v hv => absurd hv (List.not_mem_nil v), ha⟩
    · have hl : ∃ c ∈ l, f c = true := by
        obtain ⟨c, hc, hfc⟩ := h
        rcases List.mem_cons.1 hc with rfl | hc'
        · exact absurd hfc ha
        · exact ⟨c, hc', hfc⟩
      obtain ⟨visited, c, rest, hl', hv, hc⟩ := ih hl
      refine ⟨a :: visited, c, rest, by rw [hl', List.cons_append], ?_, hc⟩
      intro v hv'
      rcases List.mem_cons.1 hv' with rfl | hv''
      · simpa using ha
      · exact hv v hv''

theorem GetNamespacesForProject_eq (lister : ClusterLister) (project : String) :
    GetNamespacesForProject lister project = GetPNs lister project := by
  unfold GetNamespacesForProject
  rcases h : GetPNs lister project with ⟨pn, _ | err⟩ <;> rfl

theorem visitClusters_ProjectId (lister : ClusterLister) (projectId : String)
    (clusters : List String) (pn : ProjectNamespaces) :
    (visitClusters lister projectId clusters pn).1.ProjectId = pn.ProjectId := by
  induction clusters generalizing pn with
  | nil => rfl
  | cons c clusters ih =>
    rw [visitClusters]
    rcases lister.ClientConfig projectId c with _ | e₁
    · rcases lister.NewForConfig projectId c with _ | e₂
      · rcases lister.List projectId c with e₃ | items
        · rfl
        · simp only [ih]
      · rfl
    · rfl

/-- The value `GetPNs` returns carries the project identifier, with or without an error. -/
theorem GetPNs_ProjectId (lister : ClusterLister) (projectId : String) :
    (GetPNs lister projectId).1.ProjectId = projectId := by
  unfold GetPNs
  rcases lister.getK8sClusterConfigs projectId with err | clusters
  · rfl
  · simp only [visitClusters_ProjectId]

/-- The scan of a single project returns, at the first receive, the one value sent. -/
theorem ScanProjectsForNamespaces_single (lister : ClusterLister) (project : String)
    (verbose : Bool) (k : Nat) (schedule : List Nat) :
    ScanProjectsForNamespaces lister [project] verbose (k :: schedule)
      = some [(GetNamespacesForProject lister project).1] := by
  cases schedule <;>
    simp [ScanProjectsForNamespaces, scanLoop, ScanState.start, receive, Nat.mod_one]

/-- C7, as the claim states it, fails: when the cluster visited second fails, `GetPNs`
returns an error together with a `ProjectNamespaces` that holds the entry of the cluster
visited first; `ScanProjectsForNamespaces` puts that value in the aggregate, and the
inventory built from it lists the namespace of the first cluster. -/
theorem GetPNs_failure_returns_partial_clusters :
    clusterFails flakyLister "p" "gke_p_l_c2" = true
      ∧ GetPNs flakyLister "p"
        = ({ ProjectId := "p",
             Clusters := [{ ClusterName := "gke_p_l_c1", Namespaces := ["payments"] }] },
            some (.wrapped "failed to list namespaces" "gke_p_l_c2" (.upstream "timeout")))
      ∧ ScanProjectsForNamespaces flakyLister ["p"] false [0]
        = some [{ ProjectId := "p",
                  Clusters := [{ ClusterName := "gke_p_l_c1", Namespaces := ["payments"] }] }]
      ∧ (CreateFromProjectNamespaces Inventory.empty
          [{ ProjectId := "p",
             Clusters := [{ ClusterName := "gke_p_l_c1", Namespaces := ["payments"] }] }]).1
          "payments"
        = some [{ Cluster := "c1", ProjectID := "p", Location := "l" }] := by
  decide

/-- C7, amended: if building the client configuration or listing the namespaces fails for
one of a project's clusters, `GetPNs` stops at the first failing cluster in visiting
order and returns an error together with a `ProjectNamespaces` that carries the project
identifier and the entries of exactly the clusters visited before that cluster (none
when it is visited first); `ScanProjectsForNamespaces` appends this value to the
aggregate. -/
theorem GetPNs_failure_returns_visited_clusters (lister : ClusterLister) (projectId : String)
    (clusters : List String)
    (hcfg : lister.getK8sClusterConfigs projectId = .ok clusters)
    (hfail : ∃ c ∈ clusters, clusterFails lister projectId c = true) :
    ∃ visited c rest err,
      clusters = visited ++ c :: rest
        ∧ (∀ v ∈ visited, clusterFails lister projectId v = false)
        ∧ clusterFails lister projectId c = true
        ∧ GetPNs lister projectId
          = ({ ProjectId := projectId,
               Clusters := visited.map (scannedCluster lister projectId) }, some err)
        ∧ (∀ verbose k schedule,
            ScanProjectsForNamespaces lister [projectId] verbose (k :: schedule)
              = some [{ ProjectId := projectId,
                        Clusters := visited.map (scannedCluster lister projectId) }]) := by
  obtain ⟨visited, c, rest, hsplit, hok, hc⟩ :=
    exists_first_failing (clusterFails lister projectId) clusters hfail
  obtain ⟨err, herr⟩ := visitClusters_stops_at_failure lister projectId visited c rest
    { ProjectId := projectId, Clusters := [] } hok hc
  have hget : GetPNs lister projectId
      = ({ ProjectId := projectId,
           Clusters := visited.map (scannedCluster lister projectId) }, some err) := by
    unfold GetPNs
    rw [hcfg]
    simp only [hsplit, herr, List.nil_append]
  refine ⟨visited, c, rest, err, hsplit, hok, hc, hget, ?_⟩
  intro verbose k schedule
  rw [ScanProjectsForNamespaces_single, GetNamespacesForProject_eq, hget]

theorem GetPNs_failure_returns_visited_clusters_witness :
    flakyLister.getK8sClusterConfigs "p" = .ok ["gke_p_l_c1", "gke_p_l_c2"]
      ∧ (∃ c ∈ ["gke_p_l_c1", "gke_p_l_c2"], clusterFails flakyLister "p" c = true)
      ∧ ∃ visited c rest err,
          ["gke_p_l_c1", "gke_p_l_c2"] = visited ++ c :: rest
            ∧ (∀ v ∈ visited, clusterFails flakyLister "p" v = false)
            ∧ clusterFails flakyLister "p" c = true
            ∧ GetPNs flakyLister "p"
              = ({ ProjectId := "p",
                   Clusters := visited.map (scannedCluster flakyLister "p") }, some err)
            ∧ (∀ verbose k schedule,
                ScanProjectsForNamespaces flakyLister ["p"] verbose (k :: schedule)
                  = some [{ ProjectId := "p",
                            Clusters := visited.map (scannedCluster flakyLister "p") }]) :=
  ⟨rfl, by decide,
   GetPNs_failure_returns_visited_clusters flakyLister "p" ["gke_p_l_c1", "gke_p_l_c2"] rfl
     (by decide)⟩

/-! ## The scan coordinator -/

theorem perm_cons_eraseIdx {α : Type} (l : List α) (j : Nat) (x : α) (h : l[j]? = some x) :
    l.Perm (x :: l.eraseIdx j) := by
  induction l generalizing j with
  | nil => simp at h
  | cons a l ih =>
    cases j with
    | zero =>
      simp only [List.getElem?_cons_zero, Option.some.injEq] at h
      subst h
      simp
    | succ j =>
      simp only [List.getElem?_cons_succ] at h
      simp only [List.eraseIdx_cons_succ]
      exact ((ih j h).cons a).trans (List.Perm.swap x a _)

theorem scanLoop_of_closed (n : Nat) (schedule : List Nat) (s : ScanState)
    (h : s.closed = true) : scanLoop n schedule s = some s.projectNamespacesList := by
  cases schedule <;> simp [scanLoop, h]

/-- While goroutines are left to deliver and the schedule is long enough, the receive
loop runs to the close of the channel and returns the values received and to be
received, in the order of the schedule. -/
theorem scanLoop_returns (n : Nat) (schedule : List Nat) (s : ScanState)
    (hopen : s.closed = false)
    (hlen : s.projectNamespacesList.length + s.senders.length = n)
    (hne : s.senders ≠ [])
    (hs : s.senders.length ≤ schedule.length) :
    ∃ l, scanLoop n schedule s = some l ∧ l.Perm (s.projectNamespacesList ++ s.senders) := by
  induction schedule generalizing s with
  | nil =>
    have : s.senders.length = 0 := by simpa using hs
    exact absurd (List.length_eq_zero.1 this) hne
  | cons k schedule ih =>
    have hpos : 0 < s.senders.length := List.length_pos.2 hne
    have hj : k % s.senders.length < s.senders.length := Nat.mod_lt _ hpos
    have hget : s.senders[k % s.senders.length]? = some (s.senders[k % s.senders.length]) :=
      List.getElem?_eq_getElem hj
    have hperm := perm_cons_eraseIdx s.senders _ _ hget
    have hrecv : receive n (k % s.senders.length) s
        = some
          { senders := s.senders.eraseIdx (k % s.senders.length),
            projectNamespacesList := s.projectNamespacesList ++ [s.senders[k % s.senders.length]],
            closed := decide ((s.projectNamespacesList
              ++ [s.senders[k % s.senders.length]]).length = n) } := by
      simp [receive, hopen, hget]
    have hstep : scanLoop n (k :: schedule) s
        = scanLoop n schedule
          { senders := s.senders.eraseIdx (k % s.senders.length),
            projectNamespacesList := s.projectNamespacesList ++ [s.senders[k % s.senders.length]],
            closed := decide ((s.projectNamespacesList
              ++ [s.senders[k % s.senders.length]]).length = n) } := by
      rw [scanLoop]
      simp only [hopen, Bool.false_eq_true, if_false, hrecv]
    have hfinal : (s.projectNamespacesList ++ s.senders[k % s.senders.length]
          :: s.senders.eraseIdx (k % s.senders.length)).Perm
        (s.projectNamespacesList ++ s.senders) :=
      List.Perm.append_left _ hperm.symm
    rw [hstep]
    by_cases hlast : (s.projectNamespacesList ++ [s.senders[k % s.senders.length]]).length = n
    · rw [scanLoop_of_closed _ _ _ (by simp [hlast])]
      refine ⟨_, rfl, ?_⟩
      have hone : s.senders.length = 1 := by
        simp only [List.length_append, List.length_singleton] at hlast
        omega
      have herase : s.senders.eraseIdx (k % s.senders.length) = [] := by
        apply List.length_eq_zero.1
        rw [List.length_eraseIdx_of_lt hj, hone]
      rw [herase] at hfinal
      exact hfinal
    · have hlen' : (s.projectNamespacesList ++ [s.senders[k % s.senders.length]]).length
            + (s.senders.eraseIdx (k % s.senders.length)).length = n := by
        simp only [List.length_append, List.length_singleton, List.length_eraseIdx_of_lt hj]
        omega
      have hne' : s.senders.eraseIdx (k % s.senders.length) ≠ [] := by
        intro he
        apply hlast
        rw [he] at hlen'
        simpa using hlen'
      have hs' : (s.senders.eraseIdx (k % s.senders.length)).length ≤ schedule.length := by
        rw [List.length_eraseIdx_of_lt hj]
        simp only [List.length_cons] at hs
        omega
      obtain ⟨l, hl, hlperm⟩ := ih
        { senders := s.senders.eraseIdx (k % s.senders.length),
          projectNamespacesList := s.projectNamespacesList ++ [s.senders[k % s.senders.length]],
          closed := decide ((s.projectNamespacesList
            ++ [s.senders[k % s.senders.length]]).length = n) }
        (decide_eq_false hlast) hlen' hne' hs'
      refine ⟨l, hl, hlperm.trans ?_⟩
      simpa using hfinal

/-- The scan of a non-empty list of projects returns under every schedule that lets each
goroutine deliver: one result per project, the project identifiers being those of the
input in some order. -/
theorem ScanProjectsForNamespaces_returns_of_nonempty (lister : ClusterLister)
    (projects : List String) (verbose : Bool) (schedule : List Nat)
    (hne : projects ≠ []) (hs : projects.length ≤ schedule.length) :
    ∃ l, ScanProjectsForNamespaces lister projects verbose schedule = some l
      ∧ l.length = projects.length
      ∧ (l.map ProjectNamespaces.ProjectId).Perm projects := by
  obtain ⟨l, hl, hperm⟩ := scanLoop_returns projects.length schedule
    (ScanState.start lister projects) rfl (by simp [ScanState.start])
    (by simpa [ScanState.start] using hne) (by simpa [ScanState.start] using hs)
  refine ⟨l, hl, ?_, ?_⟩
  · rw [hperm.length_eq]
    simp [ScanState.start]
  · have hmap := hperm.map ProjectNamespaces.ProjectId
    have hids : (projects.map (fun pr => (GetNamespacesForProject lister pr).1)).map
        ProjectNamespaces.ProjectId = projects := by
      rw [List.map_map]
      have hfun : (ProjectNamespaces.ProjectId ∘ fun pr => (GetNamespacesForProject lister pr).1)
          = id := by
        funext pr
        simp [GetNamespacesForProject_eq, GetPNs_ProjectId]
      rw [hfun, List.map_id]
    simpa [ScanState.start, hids] using hmap

/-- C2 at the empty list of projects: `ScanProjectsForNamespaces` never returns. No
goroutine is started, the channel is open and nothing is received, so the check that
closes the channel is never reached: under every schedule the main goroutine stays
blocked in `range pnsChan`. -/
theorem ScanProjectsForNamespaces_empty_never_returns (lister : ClusterLister)
    (verbose : Bool) :
    (∀ schedule, ScanProjectsForNamespaces lister [] verbose schedule = none)
      ∧ (ScanState.start lister []).closed = false
      ∧ (ScanState.start lister []).senders = []
      ∧ (∀ k, receive 0 k (ScanState.start lister []) = none) := by
  refine ⟨?_, rfl, rfl, ?_⟩
  · intro schedule
    cases schedule <;>
      simp [ScanProjectsForNamespaces, scanLoop, ScanState.start, receive]
  · intro k
    simp [ScanState.start, receive]

/-! ## Persistence -/

/-- Decoding the record of a location gives the location back: the three tags are
distinct, so each field is set from its own pair. -/
theorem decodeLocation_encodeLocation (nl : NamespaceLocation) :
    decodeLocation (encodeLocation nl) = nl := by
  cases nl
  simp [decodeLocation, encodeLocation, setField]

theorem map_decode_encode (l : List NamespaceLocation) :
    (l.map encodeLocation).map decodeLocation = l := by
  rw [List.map_map]
  have hfun : decodeLocation ∘ encodeLocation = id :=
    funext decodeLocation_encodeLocation
  rw [hfun, List.map_id]

/-- Decoding the entries that `Marshal` writes for the keys `keys` of `I` stores the list
of `I` at each of these keys and leaves the other names of `out` as they are. -/
theorem decodeEntries_marshalled (I : Inventory) (keys : List String) (out : Inventory)
    (n : String) :
    decodeEntries (keys.map (fun k => (k, (I.get k).map encodeLocation))) out n
      = if n ∈ keys then some (I.get n) else out n := by
  induction keys generalizing out with
  | nil => simp [decodeEntries]
  | cons k keys ih =>
    simp only [List.map_cons, decodeEntries, ih, map_decode_encode, List.mem_cons]
    by_cases hmem : n ∈ keys
    · simp [hmem]
    · by_cases hk : n = k
      · subst hk
        simp [hmem, Inventory.set]
      · simp [hmem, hk, Inventory.set]

/-- C5: round trip. For every inventory `I` (with `keys` the list of its keys) and every
file path, if `I.Save(path)` succeeds then `Load(path)` on an empty inventory succeeds
and returns a mapping with the same key set as `I` and, for every key, the same
locations as `I` (`Cluster`, `ProjectID` and `Location` all preserved): the mapping
returned is `I` itself, so the lists agree in order and a fortiori as multisets. -/
theorem save_then_load_round_trip (I : Inventory) (keys : List String) (fileName : String)
    (fs fs' : FileSystem)
    (hkeys : ∀ n, n ∈ keys ↔ I n ≠ none)
    (hsave : Save I keys fileName fs = (fs', none)) :
    ∃ L, Load Inventory.empty fileName fs' = .ok L
      ∧ L = I
      ∧ (∀ n, L n = none ↔ I n = none)
      ∧ (∀ n, (L.get n).Perm (I.get n)) := by
  have hfile : fs'.files fileName
      = some (FileContent.inventoryDocument
          (keys.map (fun k => (k, (I.get k).map encodeLocation)))) := by
    unfold Save Marshal WriteFile at hsave
    by_cases hw : fs.writeFails fileName = true
    · simp [hw] at hsave
    · simp only [hw, Bool.false_eq_true, if_false, Prod.mk.injEq, and_true] at hsave
      rw [← hsave]
      simp
  have hload : Load Inventory.empty fileName fs'
      = .ok (decodeEntries (keys.map (fun k => (k, (I.get k).map encodeLocation)))
          Inventory.empty) := by
    unfold Load ReadFile
    rw [hfile]
    rfl
  have hL : decodeEntries (keys.map (fun k => (k, (I.get k).map encodeLocation)))
      Inventory.empty = I := by
    funext n
    rw [decodeEntries_marshalled]
    by_cases hmem : n ∈ keys
    · have hsome := (hkeys n).1 hmem
      rcases hI : I n with _ | l
      · exact absurd hI hsome
      · simp [hmem, Inventory.get, hI]
    · have hnone : I n = none := by
        by_contra hne
        exact hmem ((hkeys n).2 hne)
      simp [hmem, hnone, Inventory.empty]
  refine ⟨_, hload, hL, ?_, ?_⟩
  · intro n
    rw [hL]
  · intro n
    rw [hL]

theorem save_then_load_round_trip_witness :
    (∀ n, n ∈ ["payments", "orders"]
        ↔ ((Inventory.empty.set "payments"
              [{ Cluster := "webapp-1", ProjectID := "proj1", Location := "us-central1" },
               { Cluster := "billing", ProjectID := "proj2", Location := "europe-west1" }]).set
            "orders" []) n ≠ none)
      ∧ (Save
          ((Inventory.empty.set "payments"
              [{ Cluster := "webapp-1", ProjectID := "proj1", Location := "us-central1" },
               { Cluster := "billing", ProjectID := "proj2", Location := "europe-west1" }]).set
            "orders" [])
          ["payments", "orders"] "namespaces.yaml"
          { files := fun _ => none, writeFails := fun _ => false }).2 = none
      ∧ ∃ L, Load Inventory.empty "namespaces.yaml"
            (Save
              ((Inventory.empty.set "payments"
                  [{ Cluster := "webapp-1", ProjectID := "proj1", Location := "us-central1" },
                   { Cluster := "billing", ProjectID := "proj2", Location := "europe-west1" }]).set
                "orders" [])
              ["payments", "orders"] "namespaces.yaml"
              { files := fun _ => none, writeFails := fun _ => false }).1 = .ok L
          ∧ L = (Inventory.empty.set "payments"
                  [{ Cluster := "webapp-1", ProjectID := "proj1", Location := "us-central1" },
                   { Cluster := "billing", ProjectID := "proj2", Location := "europe-west1" }]).set
                "orders" []
          ∧ (∀ n, L n = none
              ↔ ((Inventory.empty.set "payments"
                  [{ Cluster := "webapp-1", ProjectID := "proj1", Location := "us-central1" },
                   { Cluster := "billing", ProjectID := "proj2", Location := "europe-west1" }]).set
                "orders" []) n = none)
          ∧ (∀ n, (L.get n).Perm
              (((Inventory.empty.set "payments"
                  [{ Cluster := "webapp-1", ProjectID := "proj1", Location := "us-central1" },
                   { Cluster := "billing", ProjectID := "proj2", Location := "europe-west1" }]).set
                "orders" []).get n)) :=
  have hkeys : ∀ n, n ∈ ["payments", "orders"]
      ↔ ((Inventory.empty.set "payments"
            [{ Cluster := "webapp-1", ProjectID := "proj1", Location := "us-central1" },
             { Cluster := "billing", ProjectID := "proj2", Location := "europe-west1" }]).set
          "orders" []) n ≠ none := by
    intro n
    by_cases h₁ : n = "orders"
    · simp [Inventory.set, h₁]
    · by_cases h₂ : n = "payments"
      · simp [Inventory.set, h₂]
      · simp [Inventory.set, Inventory.empty, h₁, h₂]
  ⟨hkeys, rfl,
   save_then_load_round_trip _ ["payments", "orders"] "namespaces.yaml"
     { files := fun _ => none, writeFails := fun _ => false } _ hkeys rfl⟩

end Nscon
